import Mathlib

/-!
# IoT_BLEMESH: vendor client / vendor server application logic

A shallow embedding of `Vendor_client/app.c` and `Vendor_server/app.c`.

Conventions of the embedding:

* a `uint8_t`, `uint32_t` or `uint64_t` value is a `Nat`, reduced `% 2^w` wherever the C
  code stores into an object of that width;
* a C `int` operand of a bitwise operator is the `Nat` holding its 32-bit two's complement
  pattern (`int32Bits`), so that `&`, `|` and `~` are `Nat.land`, `Nat.lor` and `bnot32`;
* a byte array is a `List Nat`, read with `getD _ 0` and written with `List.set`;
* calls into the platform (LCD, log, timer, publication) that the claims speak about are
  recorded in the state.
-/

namespace BleMesh

/-! ## Machine integers -/

/-- Two's complement bit pattern of a C `int` (32 bits). -/
def int32Bits (x : Int) : Nat := (x % 2 ^ 32).toNat

/-- Value of a 32-bit pattern read as `int32_t`. -/
def toInt32 (w : Nat) : Int :=
  if w % 2 ^ 32 < 2 ^ 31 then ((w % 2 ^ 32 : Nat) : Int) else ((w % 2 ^ 32 : Nat) : Int) - 2 ^ 32

/-- The C operator `~` on an `int` operand given by its 32-bit pattern. -/
def bnot32 (w : Nat) : Nat := 2 ^ 32 - 1 - w % 2 ^ 32

/-! ## Vendor client: timing codec (`Vendor_client/app.c`, lines 63-76 and 459-480) -/

/-- Constant `#define STEP_RES_100_MILLI 0` -/
def STEP_RES_100_MILLI : Nat := 0

/-- Constant `#define STEP_RES_1_SEC ((1) << 6)` -/
def STEP_RES_1_SEC : Nat := 1 <<< 6

/-- Constant `#define STEP_RES_10_SEC ((2) << 6)` -/
def STEP_RES_10_SEC : Nat := 2 <<< 6

/-- Constant `#define STEP_RES_10_MIN ((3) << 6)` -/
def STEP_RES_10_MIN : Nat := 3 <<< 6

/-- Constant `#define STEP_RES_BIT_MASK 0xC0` -/
def STEP_RES_BIT_MASK : Nat := 0xC0

/-- Constant `#define SET_100_MILLI(x) (uint8_t)(STEP_RES_100_MILLI | ((x) & (0x3F)))` -/
def SET_100_MILLI (x : Int) : Nat := (STEP_RES_100_MILLI ||| (int32Bits x &&& 0x3F)) % 2 ^ 8

/-- Constant `#define SET_1_SEC(x) (uint8_t)(STEP_RES_1_SEC | ((x) & (0x3F)))` -/
def SET_1_SEC (x : Int) : Nat := (STEP_RES_1_SEC ||| (int32Bits x &&& 0x3F)) % 2 ^ 8

/-- Constant `#define SET_10_SEC(x) (uint8_t)(STEP_RES_10_SEC | ((x) & (0x3F)))` -/
def SET_10_SEC (x : Int) : Nat := (STEP_RES_10_SEC ||| (int32Bits x &&& 0x3F)) % 2 ^ 8

/-- Constant `#define SET_10_MIN(x) (uint8_t)(STEP_RES_10_MIN | ((x) & (0x3F)))` -/
def SET_10_MIN (x : Int) : Nat := (STEP_RES_10_MIN ||| (int32Bits x &&& 0x3F)) % 2 ^ 8

/-- The array `static uint8_t periods[]` of the client. -/
def periods : List Nat :=
  [ SET_100_MILLI 10,  -- 1s
    SET_1_SEC 10,      -- 10s
    SET_10_SEC 6,      -- 1min
    SET_10_MIN 1,      -- 10min
    0 ]

/-- The function `parse_period`: the value it stores into `periodic_timer_ms` (`uint32_t`) for
the `uint8_t` argument `interval`. The operand `interval & (~STEP_RES_BIT_MASK)` is an `int`. -/
def parse_period (interval : Nat) : Nat :=
  let interval := interval % 2 ^ 8
  let sel := interval &&& STEP_RES_BIT_MASK
  if sel = STEP_RES_100_MILLI then
    (100 * (interval &&& bnot32 STEP_RES_BIT_MASK)) % 2 ^ 32
  else if sel = STEP_RES_1_SEC then
    (1000 * (interval &&& bnot32 STEP_RES_BIT_MASK)) % 2 ^ 32
  else if sel = STEP_RES_10_SEC then
    (10000 * (interval &&& bnot32 STEP_RES_BIT_MASK)) % 2 ^ 32
  else if sel = STEP_RES_10_MIN then
    -- 10 min = 600000ms
    (600000 * (interval &&& bnot32 STEP_RES_BIT_MASK)) % 2 ^ 32
  else
    -- Set to 0 for "No update" case or invalid interval
    0

/-! ## Platform collaborators shared by both roles -/

/-- Constants that the sources use but whose header (`my_model_def.h` with the opcode
enumeration, `DATA_LENGTH`) is not the one in the repository; they are parameters. -/
structure Config where
  /-- The opcode `sensor_status`. -/
  sensor_status : Nat
  /-- The constant `DATA_LENGTH`. -/
  DATA_LENGTH : Nat
  deriving DecidableEq, Repr

/-- A call into a platform collaborator, recorded in the order made. Format strings are kept
without their trailing line break. -/
inductive Effect where
  /-- Call `lcd_print(text, row)` -/
  | lcd_print (text : String) (row : Nat)
  /-- Call `app_log(fmt, args...)` -/
  | app_log (fmt : String) (args : List Int)
  /-- Call `sl_bt_external_signal(signals)` -/
  | external_signal (signals : Nat)
  /-- Call `sl_btmesh_vendor_model_set_publication(.., opcode, 1, length, data)` -/
  | set_publication (opcode : Nat) (length : Nat) (data : List Nat)
  /-- Call `sl_btmesh_vendor_model_publish(..)` -/
  | publish
  /-- A conversion `(int32_t)` of a floating value outside the range of `int32_t`. -/
  | cast_out_of_range
  deriving DecidableEq, Repr

/-- Whether a recorded call is output to the display or the log only, that is neither an
external signal nor a publication request. -/
def Effect.is_display : Effect → Bool
  | .lcd_print _ _ => true
  | .app_log _ _ => true
  | _ => false

/-- Constant `SL_STATUS_OK` of the platform header `sl_status.h`. -/
def SL_STATUS_OK : Nat := 0

/-- State of one `app_timer_t` handle as far as the application can tell. -/
structure AppTimer where
  running : Bool
  timeout_ms : Nat
  is_periodic : Bool
  deriving DecidableEq, Repr

/-- Modelled from the spec: the platform call `app_timer_stop` (section 6, "Timer control:
start(period_ms, repeating: bool) / stop()"; section 5, cancelling an already-stopped timer is
a no-op). -/
def app_timer_stop (t : AppTimer) : AppTimer := { t with running := false }

/-- Modelled from the spec: the platform call `app_timer_start(handle, timeout_ms, callback,
data, is_periodic)` (section 6, "Timer control: start(period_ms, repeating: bool) / stop()"). -/
def app_timer_start (_t : AppTimer) (timeout_ms : Nat) (is_periodic : Bool) : AppTimer :=
  { running := true, timeout_ms := timeout_ms, is_periodic := is_periodic }

/-- Modelled from the spec: duration class "short" of a button event (section 6), the constant
`APP_BUTTON_PRESS_DURATION_SHORT` of the platform header `app_button_press.h`. -/
def APP_BUTTON_PRESS_DURATION_SHORT : Nat := 0

/-- Modelled from the spec: duration class "medium" of a button event (section 6), the
constant `APP_BUTTON_PRESS_DURATION_MEDIUM` of the platform header `app_button_press.h`. -/
def APP_BUTTON_PRESS_DURATION_MEDIUM : Nat := 1

/-- Modelled from the spec: duration class "long" of a button event (section 6), the constant
`APP_BUTTON_PRESS_DURATION_LONG` of the platform header `app_button_press.h`. -/
def APP_BUTTON_PRESS_DURATION_LONG : Nat := 2

/-- Modelled from the spec: duration class "very_long" of a button event (section 6), the
constant `APP_BUTTON_PRESS_DURATION_VERYLONG` of the platform header `app_button_press.h`. -/
def APP_BUTTON_PRESS_DURATION_VERYLONG : Nat := 3

/-- The four bytes of a 32-bit object in memory order on the little-endian target. -/
def le_bytes32 (w : Nat) : List Nat :=
  [w % 2 ^ 8, w / 2 ^ 8 % 2 ^ 8, w / 2 ^ 16 % 2 ^ 8, w / 2 ^ 24 % 2 ^ 8]

/-! ## Vendor client: state, sensor payload, period selection -/

namespace Client

/-- Constant `#define EX_B0_PRESS ((1) << 5)` -/
def EX_B0_PRESS : Nat := 1 <<< 5

/-- Constant `#define EX_B0_LONG_PRESS ((1) << 6)` -/
def EX_B0_LONG_PRESS : Nat := 1 <<< 6

/-- Constant `#define EX_B1_PRESS ((1) << 7)` -/
def EX_B1_PRESS : Nat := 1 <<< 7

/-- Constant `#define EX_B1_LONG_PRESS ((1) << 8)` -/
def EX_B1_LONG_PRESS : Nat := 1 <<< 8

/-- Constant `#define BUTTON_PRESS_BUTTON_0 0` -/
def BUTTON_PRESS_BUTTON_0 : Nat := 0

/-- Constant `#define BUTTON_PRESS_BUTTON_1 1` -/
def BUTTON_PRESS_BUTTON_1 : Nat := 1

/-- The file-scope variables of `Vendor_client/app.c` and the calls made so far. -/
structure State where
  /-- Variable `static uint8_t temperature[4]` -/
  temperature : List Nat
  /-- Variable `static uint8_t humidity[4]` -/
  humidity : List Nat
  /-- Variable `static uint8_t sensor_data[8]` -/
  sensor_data : List Nat
  /-- Variable `static uint32_t periodic_timer_ms` -/
  periodic_timer_ms : Nat
  /-- Variable `bool select_update_mode` -/
  select_update_mode : Bool
  /-- Variable `static uint8_t period_idx` -/
  period_idx : Nat
  /-- Variable `static app_timer_t periodic_update_timer` -/
  periodic_update_timer : AppTimer
  /-- Calls into the platform, oldest first. -/
  effects : List Effect
  deriving DecidableEq, Repr

/-- The state after static initialisation. -/
def init : State :=
  { temperature := [0, 0, 0, 0]
    humidity := [0, 0, 0, 0]
    sensor_data := [0, 0, 0, 0, 0, 0, 0, 0]
    periodic_timer_ms := 0
    select_update_mode := false
    period_idx := 0
    periodic_update_timer := { running := false, timeout_ms := 0, is_periodic := false }
    effects := [] }

/-- Append one platform call to the record. -/
def emit (s : State) (e : Effect) : State := { s with effects := s.effects ++ [e] }

/-- What one call of `sl_sensor_rht_get(&rh, &t)` returns: the status and, on success, the
relative humidity (`uint32_t`) and the temperature (`int32_t`). -/
structure RhtRead where
  status : Nat
  rh : Nat
  t : Int
  deriving DecidableEq, Repr

/-- The loop `for (i = 0; i < 4; i++) { sensor_data[i] = humidity[i];
sensor_data[i + 4] = temperature[i]; }`. -/
def pack_sensor_data (humidity temperature sensor_data : List Nat) : List Nat :=
  (List.range 4).foldl
    (fun sd i => (sd.set i (humidity.getD i 0)).set (i + 4) (temperature.getD i 0))
    sensor_data

/-- The function `read_sensor_data`. The sensor driver stores its two 32-bit results through
`(uint32_t *)humidity` and `(int32_t *)temperature`. -/
def read_sensor_data (s : State) (r : RhtRead) : State :=
  let s :=
    if r.status ≠ SL_STATUS_OK then
      let s := emit s
        (.app_log "Error while reading temperature and humidity sensor. Clear the buffer." [])
      { s with temperature := List.replicate 4 0, humidity := List.replicate 4 0 }
    else
      { s with humidity := le_bytes32 (r.rh % 2 ^ 32), temperature := le_bytes32 (int32Bits r.t) }
  { s with sensor_data := pack_sensor_data s.humidity s.temperature s.sensor_data }

/-- The text that `choose_period` puts on row 5 of the display. -/
def period_label (choose : Nat) : String :=
  match choose with
  | 0 => "1 second"
  | 1 => "10 seconds"
  | 2 => "1 minute"
  | 3 => "10 minutes"
  | _ => "No update"

/-- The function `choose_period`. -/
def choose_period (s : State) (choose : Nat) : State :=
  let s := emit s (.lcd_print "Hold PB0 to choose" 3)
  let s := emit s (.lcd_print "Choose your period update: " 4)
  emit s (.lcd_print (period_label choose) 5)

/-- The function `print_update_time`. -/
def print_update_time (s : State) (choose : Nat) : State :=
  match choose with
  | 0 => emit s (.app_log "1s" [])
  | 1 => emit s (.app_log "10s" [])
  | 2 => emit s (.app_log "1m" [])
  | 3 => emit s (.app_log "10m" [])
  | _ => emit s (.app_log "No update" [])

/-- The function `setup_periodcal_update`. -/
def setup_periodcal_update (s : State) (interval : Nat) : State :=
  -- Stop existing timer first
  let s := { s with periodic_update_timer := app_timer_stop s.periodic_update_timer }
  let s := { s with periodic_timer_ms := parse_period interval }
  -- Only start timer if periodic_timer_ms is not 0
  if s.periodic_timer_ms > 0 then
    { s with periodic_update_timer :=
        app_timer_start s.periodic_update_timer s.periodic_timer_ms true }
  else
    emit s (.app_log "Periodic update stopped." [])

/-- The function `app_button_press_select_period_update_cb`; `sizeof(periods)` is
`periods.length`, and `periods[period_idx]` is read with `getD`. -/
def app_button_press_select_period_update_cb (s : State) (button duration : Nat) : State :=
  if duration = APP_BUTTON_PRESS_DURATION_SHORT then
    let s :=
      if button = BUTTON_PRESS_BUTTON_0 then
        if s.period_idx < periods.length - 1 then
          { s with period_idx := (s.period_idx + 1) % 2 ^ 8 }
        else
          { s with period_idx := 0 }
      else
        if s.period_idx > 0 then
          { s with period_idx := s.period_idx - 1 }
        else
          { s with period_idx := (periods.length - 1) % 2 ^ 8 }
    choose_period s s.period_idx
  else if duration = APP_BUTTON_PRESS_DURATION_LONG then
    if button = BUTTON_PRESS_BUTTON_0 then
      let s := { s with select_update_mode := false }
      let s := emit s (.app_log "Mode %1d selected." [s.period_idx])
      let s := emit s (.app_log "Period update time: " [])
      let s := print_update_time s s.period_idx
      let s := setup_periodcal_update s (periods.getD s.period_idx 0)
      let s := emit s (.lcd_print "PB0: Public data" 3)
      let s := emit s (.lcd_print "PB1: Set period" 4)
      emit s (.app_log "B1 Pressed. Set periodic update done." [])
    else
      s
  else
    s

/-- The function `app_button_press_cb`. -/
def app_button_press_cb (s : State) (button duration : Nat) : State :=
  if s.select_update_mode then
    app_button_press_select_period_update_cb s button duration
  else if duration = APP_BUTTON_PRESS_DURATION_SHORT
      ∨ duration = APP_BUTTON_PRESS_DURATION_MEDIUM then
    if button = BUTTON_PRESS_BUTTON_0 then
      emit s (.external_signal EX_B0_PRESS)
    else
      emit s (.external_signal EX_B1_PRESS)
  else if duration = APP_BUTTON_PRESS_DURATION_LONG then
    if button = BUTTON_PRESS_BUTTON_0 then
      emit s (.external_signal EX_B0_LONG_PRESS)
    else
      emit s (.external_signal EX_B1_LONG_PRESS)
  else
    s

/-- The sequence set-publication then publish that `sl_bt_on_event` and
`periodic_update_timer_cb` share; `sc_set` and `sc_publish` are the status codes the two
platform calls return. -/
def publish_sensor_data (cfg : Config) (s : State) (sc_set sc_publish : Nat) : State :=
  let s := emit s (.set_publication cfg.sensor_status cfg.DATA_LENGTH s.sensor_data)
  if sc_set ≠ SL_STATUS_OK then
    emit s (.app_log "Set publication error: 0x%04lX" [sc_set])
  else
    let s := emit s (.app_log "Set publication done. Publishing..." [])
    let s := emit s .publish
    if sc_publish ≠ SL_STATUS_OK then
      emit s (.app_log "Publish error: 0x%04lX" [sc_publish])
    else
      emit s (.app_log "Publish done." [])

/-- What the platform returns during one run of the external-signal case of
`sl_bt_on_event`: the sensor read and status codes of the button-0 branch, and the sensor read
of the button-1 branch. -/
structure SignalEnv where
  rht_b0 : RhtRead
  sc_set : Nat
  sc_publish : Nat
  rht_b1 : RhtRead
  deriving DecidableEq, Repr

/-- The case `sl_bt_evt_system_external_signal_id` of `sl_bt_on_event`; `extsignals` is the
`uint32_t` field of the event. -/
def sl_bt_on_event (cfg : Config) (s : State) (extsignals : Nat) (env : SignalEnv) : State :=
  -- check if external signal triggered by button 0 press
  let s :=
    if extsignals % 2 ^ 32 &&& EX_B0_PRESS ≠ 0 then
      let s := read_sensor_data s env.rht_b0
      let s := emit s (.app_log "B0 Pressed. Data is sent once." [])
      publish_sensor_data cfg s env.sc_set env.sc_publish
    else
      s
  -- check if external signal triggered by button 1 press
  if extsignals % 2 ^ 32 &&& EX_B1_PRESS ≠ 0 then
    let s := read_sensor_data s env.rht_b1
    let s := { s with select_update_mode := true }
    let s := { s with period_idx := 0 }
    choose_period s s.period_idx
  else
    s

/-- The function `periodic_update_timer_cb`. -/
def periodic_update_timer_cb (cfg : Config) (s : State) (rht : RhtRead)
    (sc_set sc_publish : Nat) : State :=
  let s := emit s (.app_log "New data update" [])
  let s := read_sensor_data s rht
  publish_sensor_data cfg s sc_set sc_publish

/-- A short press of button 0 as the platform delivers it to `app_button_press_cb`. -/
def advance (s : State) : State :=
  app_button_press_cb s BUTTON_PRESS_BUTTON_0 APP_BUTTON_PRESS_DURATION_SHORT

/-- Relation between a state and a later one whose new platform calls are all output to the
display or the log: no external signal is raised and no publication is requested. -/
def quiet (s t : State) : Prop :=
  ∃ es : List Effect, t.effects = s.effects ++ es ∧ ∀ e ∈ es, e.is_display = true

/-- An event that the platform dispatches to the client application, with what the platform
returns while it is handled. -/
inductive Event where
  /-- Event `sl_bt_evt_system_external_signal_id` with its `extsignals` field. -/
  | external_signal (extsignals : Nat) (env : SignalEnv)
  /-- Button event given to `app_button_press_cb(button, duration)`. -/
  | button_press (button duration : Nat)
  /-- Expiry of `periodic_update_timer`, which runs `periodic_update_timer_cb`. -/
  | timer_tick (rht : RhtRead) (sc_set sc_publish : Nat)
  deriving DecidableEq, Repr

/-- Dispatch of one event to its handler. -/
def step (cfg : Config) (s : State) : Event → State
  | .external_signal extsignals env => sl_bt_on_event cfg s extsignals env
  | .button_press button duration => app_button_press_cb s (button % 2 ^ 8) (duration % 2 ^ 8)
  | .timer_tick rht sc_set sc_publish => periodic_update_timer_cb cfg s rht sc_set sc_publish

/-- The state after a sequence of events, handled one after the other. -/
def run (cfg : Config) (s : State) (evs : List Event) : State :=
  evs.foldl (step cfg) s

end Client

/-! ## Binary floating point, as far as the Fahrenheit conversion needs it

A finite binary floating-point number is `m * 2^e`. Products and sums are formed exactly and
then rounded to the precision of the format (53 significant bits for `double`, 24 for `float`),
to nearest with ties to even. Every value the conversion can form from an `int32_t` lies in the
normal range of both formats, so the exponent range is not modelled. -/

/-- A finite binary floating-point value `m * 2^e`. -/
structure Dyadic where
  m : Int
  e : Int
  deriving DecidableEq, Repr

namespace Dyadic

/-- Exact value of an integer. -/
def ofInt (n : Int) : Dyadic := { m := n, e := 0 }

/-- Exact product. -/
def mul (a b : Dyadic) : Dyadic := { m := a.m * b.m, e := a.e + b.e }

/-- Exact sum. -/
def add (a b : Dyadic) : Dyadic :=
  let e := min a.e b.e
  { m := a.m * 2 ^ (a.e - e).toNat + b.m * 2 ^ (b.e - e).toNat, e := e }

/-- Number of binary digits of `n`, computed with at most `fuel` halvings. -/
def bit_length : Nat → Nat → Nat
  | 0, _ => 0
  | fuel + 1, n => if n = 0 then 0 else bit_length fuel (n / 2) + 1

/-- Round to `p` significant bits, to nearest, ties to even. -/
def round (p : Nat) (a : Dyadic) : Dyadic :=
  let n := a.m.natAbs
  let bits := bit_length n n
  if bits ≤ p then a
  else
    let sh := bits - p
    let q := n / 2 ^ sh
    let r := n % 2 ^ sh
    let half := 2 ^ (sh - 1)
    let q1 := if half < r ∨ (r = half ∧ q % 2 = 1) then q + 1 else q
    { m := (if a.m < 0 then -1 else 1) * (q1 : Int), e := a.e + sh }

/-- Integer part, truncated toward zero, as the C conversion to an integer type takes it. -/
def trunc (a : Dyadic) : Int :=
  if 0 ≤ a.e then a.m * 2 ^ a.e.toNat else Int.tdiv a.m (2 ^ (-a.e).toNat)

/-- Quotient of `a` by a non-zero `b`, rounded to `p` significant bits, to nearest, ties to
even: the integer quotient is taken with `p + 2` bits or more and a sticky bit records a
non-zero remainder, so that rounding it rounds the exact quotient. -/
def div (p : Nat) (a b : Dyadic) : Dyadic :=
  let n := a.m.natAbs
  let d := b.m.natAbs
  let k := p + bit_length d d + 2
  let q := n * 2 ^ k / d
  let sticky := if n * 2 ^ k % d = 0 then 0 else 1
  round p
    { m := (if (a.m < 0) = (b.m < 0) then 1 else -1) * ((2 * q + sticky : Nat) : Int),
      e := a.e - b.e - k - 1 }

/-- The rational number `m * 2^e` that a floating-point value stands for. -/
def val (a : Dyadic) : ℚ := (a.m : ℚ) * (2 : ℚ) ^ a.e

end Dyadic

/-- The `double` constant `1.8`, that is `0x3FFCCCCCCCCCCCCD`. -/
def double_1_8 : Dyadic := { m := 8106479329266893, e := -52 }

/-! ## Vendor server: duplicate filter, ring store, sensor decoding -/

namespace Server

/-- The file-scope variables of `Vendor_server/app.c` and the calls made so far. -/
structure State where
  /-- Variable `static uint8_t cache_data[8]` -/
  cache_data : List Nat
  /-- Variable `static uint64_t store_data[8]` -/
  store_data : List Nat
  /-- Variable `uint8_t store_state` -/
  store_state : Nat
  /-- Calls into the platform, oldest first. -/
  effects : List Effect
  deriving DecidableEq, Repr

/-- The state after static initialisation. -/
def init : State :=
  { cache_data := [0, 0, 0, 0, 0, 0, 0, 0]
    store_data := [0, 0, 0, 0, 0, 0, 0, 0]
    store_state := 0
    effects := [] }

/-- Append one platform call to the record. -/
def emit (s : State) (e : Effect) : State := { s with effects := s.effects ++ [e] }

/-- The event data `sl_btmesh_evt_vendor_model_receive_t`; `payload` holds `payload.len` bytes,
so `payload.len` is `payload.length` and `payload.data[i]` is `payload.getD i 0`. -/
structure RxEvt where
  elem_index : Nat
  vendor_id : Nat
  model_id : Nat
  source_address : Nat
  destination_address : Nat
  va_index : Nat
  appkey_index : Nat
  nonrelayed : Nat
  opcode : Nat
  final : Nat
  payload : List Nat
  deriving DecidableEq, Repr

/-- The loop `for (i = 0; i < 8; i++) if (payload.data[i] != cache_data[i])
{ is_duplicate = false; break; }` started at index `i` with `n` iterations left: the value of
`is_duplicate` after it. -/
def scan_duplicate (data cache : List Nat) (i : Nat) : Nat → Bool
  | 0 => true
  | n + 1 =>
    if data.getD i 0 ≠ cache.getD i 0 then false
    else scan_duplicate data cache (i + 1) n

/-- The value of `is_duplicate` when the handler tests it. -/
def is_duplicate (s : State) (rx : RxEvt) : Bool :=
  if rx.payload.length = 8 then scan_duplicate rx.payload s.cache_data 0 8
  else false

/-- The loop `for (i = 0; i < 8; i++) cache_data[i] = payload.data[i];`. -/
def update_cache (cache data : List Nat) : List Nat :=
  (List.range 8).foldl (fun c i => c.set i (data.getD i 0)) cache

/-- The loop `for (i = 0; i < 8; i++) data_value = (data_value << 8) | cache_data[i];` on the
`uint64_t data_value`, started at 0. -/
def fold_data_value (cache : List Nat) : Nat :=
  (List.range 8).foldl (fun dv i => (dv <<< 8 ||| cache.getD i 0) % 2 ^ 64) 0

/-- The two decoding loops of the case `sensor_status`: the 32-bit pattern obtained from
`payload.data[hi]` down to `payload.data[hi - 3]` by `x = (x << 8) | data[i]`. -/
def fold_field (data : List Nat) (hi : Nat) : Nat :=
  [hi, hi - 1, hi - 2, hi - 3].foldl (fun x i => (x <<< 8 ||| data.getD i 0) % 2 ^ 32) 0

/-- The statements `float temp = (float)(temperature / 1000); temp = temp * 1.8 + 32;`
followed by the operand `temp * 1000` of the last conversion: the `float` value that
`(int32_t)` is applied to. -/
def fahrenheit_float (temperature : Int) : Dyadic :=
  let temp := Dyadic.round 24 (Dyadic.ofInt (Int.tdiv temperature 1000))
  let temp := Dyadic.round 24
    (Dyadic.round 53 (Dyadic.add (Dyadic.round 53 (Dyadic.mul temp double_1_8))
      (Dyadic.ofInt 32)))
  Dyadic.round 24 (Dyadic.mul temp (Dyadic.round 24 (Dyadic.ofInt 1000)))

/-- The Celsius-to-Fahrenheit conversion of the case `sensor_status`: the new value of
`temperature`, or `none` where `(int32_t)` is applied to a value outside `int32_t`. -/
def fahrenheit (temperature : Int) : Option Int :=
  let v := Dyadic.trunc (fahrenheit_float temperature)
  if -2 ^ 31 ≤ v ∧ v < 2 ^ 31 then some v else none

/-- The convert-then-divide value that the specification sets against the code, in exact
arithmetic: the conversion `(x * 1.8 + 32) * 1000` applied to `x = temperature / 1000` without
truncating the quotient, that is `1.8 * temperature + 32000`, truncated toward zero. -/
def fahrenheit_exact (temperature : Int) : Int :=
  Int.tdiv (9 * temperature + 160000) 5

/-- The convert-then-divide value in the arithmetic of the code: the conversion of the code
with `(float)temperature / 1000` in the place of `(float)(temperature / 1000)`, so that the
value is converted to `float` first and divided afterwards. -/
def fahrenheit_convert_first (temperature : Int) : Option Int :=
  let temp := Dyadic.div 24 (Dyadic.round 24 (Dyadic.ofInt temperature))
    (Dyadic.round 24 (Dyadic.ofInt 1000))
  let temp := Dyadic.round 24
    (Dyadic.round 53 (Dyadic.add (Dyadic.round 53 (Dyadic.mul temp double_1_8))
      (Dyadic.ofInt 32)))
  let v := Dyadic.trunc
    (Dyadic.round 24 (Dyadic.mul temp (Dyadic.round 24 (Dyadic.ofInt 1000))))
  if -2 ^ 31 ≤ v ∧ v < 2 ^ 31 then some v else none

/-- The `switch (rx_evt->opcode)` at the end of the receive handler. -/
def decode_opcode (cfg : Config) (s : State) (rx : RxEvt) : State :=
  if rx.opcode = cfg.sensor_status then
    let temperature : Int := toInt32 (fold_field rx.payload 7)
    let humidity : Nat := fold_field rx.payload 3
    let s := emit s (.app_log "Temperature = %ld.%1ld Celsius"
      [Int.tdiv temperature 1000, Int.tmod temperature 1000])
    let s :=
      match fahrenheit temperature with
      | some f => emit s (.app_log "Temperature = %ld.%1ld Fahrenheit"
          [Int.tdiv f 1000, Int.tmod f 1000])
      | none => emit s .cast_out_of_range
    emit s (.app_log "Humidity = %ld %%" [(humidity / 1000 : Nat)])
  else
    s

/-- The case `sl_btmesh_evt_vendor_model_receive_id` of `sl_btmesh_on_event`. -/
def sl_btmesh_on_event (cfg : Config) (s : State) (rx : RxEvt) : State :=
  -- Check if payload is duplicate
  if is_duplicate s rx then
    emit s (.app_log "Duplicate payload detected, skipping processing." [])
  else
    -- Update cache with new payload
    let s :=
      if rx.payload.length = 8 then { s with cache_data := update_cache s.cache_data rx.payload }
      else s
    -- Store data
    let data_value := fold_data_value s.cache_data
    let s := { s with store_data := s.store_data.set s.store_state data_value }
    let s :=
      if s.store_state < 7 then { s with store_state := s.store_state + 1 }
      else { s with store_state := 0 }
    let s := emit s (.app_log "New data stored." [])
    let s := emit s (.app_log "Vendor model data received."
      [rx.elem_index, rx.vendor_id, rx.model_id, rx.source_address, rx.destination_address,
       rx.va_index, rx.appkey_index, rx.nonrelayed, rx.opcode, rx.final])
    let s := emit s (.app_log "Payload: %x " (rx.payload.map Int.ofNat))
    decode_opcode cfg s rx

/-- The state after a sequence of inbound vendor-model messages, handled one after the other. -/
def run (cfg : Config) (s : State) (rxs : List RxEvt) : State :=
  rxs.foldl (sl_btmesh_on_event cfg) s

/-- A vendor-model message with the given opcode and payload, sent from the unicast address 5
to the group address `0xC001`. -/
def message (opcode : Nat) (payload : List Nat) : RxEvt :=
  { elem_index := 0, vendor_id := 0x1221, model_id := 0x1111, source_address := 5,
    destination_address := 0xC001, va_index := 0, appkey_index := 0, nonrelayed := 0,
    opcode := opcode, final := 1, payload := payload }

end Server

/-! ## Theorems -/

/-! ### Machine-integer lemmas -/

theorem int32Bits_and_63 (x : Int) : int32Bits x &&& 0x3F = (x % 64).toNat := by
  have h : (0x3F : Nat) = 2 ^ 6 - 1 := by norm_num
  rw [h, Nat.and_pow_two_sub_one_eq_mod]
  unfold int32Bits
  omega

theorem count_lt_64 (x : Int) : (x % 64).toNat < 64 := by omega

theorem shl8_or (x b : Nat) (hb : b < 256) : x <<< 8 ||| b = x * 256 + b := by
  have h := Nat.mul_add_lt_is_or (show b < 2 ^ 8 by omega) x
  rw [Nat.shiftLeft_eq, Nat.mul_comm x (2 ^ 8), ← h]

/-! ### Timing codec -/

set_option maxRecDepth 100000 in
theorem step_or_count : ∀ k < 64,
    (STEP_RES_100_MILLI ||| k) % 2 ^ 8 = k ∧ (STEP_RES_1_SEC ||| k) % 2 ^ 8 = 64 + k ∧
    (STEP_RES_10_SEC ||| k) % 2 ^ 8 = 128 + k ∧ (STEP_RES_10_MIN ||| k) % 2 ^ 8 = 192 + k := by
  decide

set_option maxRecDepth 100000 in
theorem parse_period_of_count : ∀ k < 64,
    parse_period k = 100 * k ∧ parse_period (64 + k) = 1000 * k ∧
    parse_period (128 + k) = 10000 * k ∧ parse_period (192 + k) = 600000 * k := by
  decide

theorem SET_100_MILLI_eq (c : Int) : SET_100_MILLI c = (c % 64).toNat := by
  unfold SET_100_MILLI
  rw [int32Bits_and_63]
  exact (step_or_count _ (count_lt_64 c)).1

theorem SET_1_SEC_eq (c : Int) : SET_1_SEC c = 64 + (c % 64).toNat := by
  unfold SET_1_SEC
  rw [int32Bits_and_63]
  exact (step_or_count _ (count_lt_64 c)).2.1

theorem SET_10_SEC_eq (c : Int) : SET_10_SEC c = 128 + (c % 64).toNat := by
  unfold SET_10_SEC
  rw [int32Bits_and_63]
  exact (step_or_count _ (count_lt_64 c)).2.2.1

theorem SET_10_MIN_eq (c : Int) : SET_10_MIN c = 192 + (c % 64).toNat := by
  unfold SET_10_MIN
  rw [int32Bits_and_63]
  exact (step_or_count _ (count_lt_64 c)).2.2.2

/-- C1: for each of the four resolutions and every count `c`, `parse_period` applied to the
byte built by the matching `SET_*` macro stores `unit * (c mod 64)` into `periodic_timer_ms`,
with unit 100, 1000, 10000 and 600000; a count of 0 gives 0 ms for every resolution and
`SET_1_SEC(10)` gives 10000. -/
theorem C1_parse_period_of_SET (c : Int) :
    (parse_period (SET_100_MILLI c) = 100 * (c % 64).toNat
      ∧ parse_period (SET_1_SEC c) = 1000 * (c % 64).toNat
      ∧ parse_period (SET_10_SEC c) = 10000 * (c % 64).toNat
      ∧ parse_period (SET_10_MIN c) = 600000 * (c % 64).toNat)
    ∧ (parse_period (SET_100_MILLI 0) = 0 ∧ parse_period (SET_1_SEC 0) = 0
      ∧ parse_period (SET_10_SEC 0) = 0 ∧ parse_period (SET_10_MIN 0) = 0)
    ∧ parse_period (SET_1_SEC 10) = 10000 := by
  have h := parse_period_of_count _ (count_lt_64 c)
  refine ⟨⟨?_, ?_, ?_, ?_⟩, by decide, by decide⟩
  · rw [SET_100_MILLI_eq]; exact h.1
  · rw [SET_1_SEC_eq]; exact h.2.1
  · rw [SET_10_SEC_eq]; exact h.2.2.1
  · rw [SET_10_MIN_eq]; exact h.2.2.2

/-- C2: for every integer count `c`, the `SET_*` macro of resolution tag `r` (0 for 100 ms,
1 for 1 s, 2 for 10 s, 3 for 10 min) yields the byte `(r << 6) | (c & 0x3F)`: it is below 256,
its top two bits are `r`, its low six bits are `c mod 64`, and the macro gives the same byte
for `c` and for `c mod 64`, so an out-of-range count is truncated. -/
theorem C2_SET_encoding (c : Int) :
    (SET_100_MILLI c = (0 <<< 6 ||| (c % 64).toNat) ∧ SET_100_MILLI c < 256
      ∧ SET_100_MILLI c / 64 = 0 ∧ SET_100_MILLI c % 64 = (c % 64).toNat
      ∧ SET_100_MILLI c = SET_100_MILLI (c % 64))
    ∧ (SET_1_SEC c = (1 <<< 6 ||| (c % 64).toNat) ∧ SET_1_SEC c < 256
      ∧ SET_1_SEC c / 64 = 1 ∧ SET_1_SEC c % 64 = (c % 64).toNat
      ∧ SET_1_SEC c = SET_1_SEC (c % 64))
    ∧ (SET_10_SEC c = (2 <<< 6 ||| (c % 64).toNat) ∧ SET_10_SEC c < 256
      ∧ SET_10_SEC c / 64 = 2 ∧ SET_10_SEC c % 64 = (c % 64).toNat
      ∧ SET_10_SEC c = SET_10_SEC (c % 64))
    ∧ (SET_10_MIN c = (3 <<< 6 ||| (c % 64).toNat) ∧ SET_10_MIN c < 256
      ∧ SET_10_MIN c / 64 = 3 ∧ SET_10_MIN c % 64 = (c % 64).toNat
      ∧ SET_10_MIN c = SET_10_MIN (c % 64)) := by
  have hk := count_lt_64 c
  have hor : ∀ k < 64, (0 <<< 6 ||| k) = k ∧ (1 <<< 6 ||| k) = 64 + k
      ∧ (2 <<< 6 ||| k) = 128 + k ∧ (3 <<< 6 ||| k) = 192 + k := by decide
  have ho := hor _ hk
  have hmm : (c % 64 % 64) = c % 64 := by omega
  refine ⟨⟨?_, ?_, ?_, ?_, ?_⟩, ⟨?_, ?_, ?_, ?_, ?_⟩, ⟨?_, ?_, ?_, ?_, ?_⟩,
    ⟨?_, ?_, ?_, ?_, ?_⟩⟩
  all_goals
    first
    | (rw [SET_100_MILLI_eq, SET_100_MILLI_eq, hmm])
    | (rw [SET_1_SEC_eq, SET_1_SEC_eq, hmm])
    | (rw [SET_10_SEC_eq, SET_10_SEC_eq, hmm])
    | (rw [SET_10_MIN_eq, SET_10_MIN_eq, hmm])
    | (rw [SET_100_MILLI_eq, ho.1])
    | (rw [SET_1_SEC_eq, ho.2.1])
    | (rw [SET_10_SEC_eq, ho.2.2.1])
    | (rw [SET_10_MIN_eq, ho.2.2.2])
    | (rw [SET_100_MILLI_eq]; omega)
    | (rw [SET_1_SEC_eq]; omega)
    | (rw [SET_10_SEC_eq]; omega)
    | (rw [SET_10_MIN_eq]; omega)

/-- The constant `double_1_8` is the `double` nearest to 1.8: its significand has 53 bits and
its distance to 9/5 is `1 / (5 * 2^52)`, below half a unit in the last place. -/
theorem double_1_8_nearest :
    double_1_8.e = -52 ∧ 2 ^ 52 ≤ double_1_8.m ∧ double_1_8.m < 2 ^ 53
    ∧ 5 * double_1_8.m - 9 * 2 ^ 52 = 1 := by
  decide

/-- C4: the Celsius-to-Fahrenheit conversion of the server applied to a decoded temperature of
25000 milli-degrees Celsius yields 77000. -/
theorem C4_fahrenheit_25000 : Server.fahrenheit 25000 = some 77000 := by
  decide

/-- C8: the candidate list has five entries and, for each index 0..4, `parse_period` of
`periods[index]` is the duration that the label displayed by `choose_period` names:
1000 ms, 10000 ms, 60000 ms, 600000 ms, and 0 ms for "No update" in the last place. -/
theorem C8_periods_match_labels :
    periods.length = 5
    ∧ (Client.period_label 0 = "1 second" ∧ parse_period (periods.getD 0 0) = 1000)
    ∧ (Client.period_label 1 = "10 seconds" ∧ parse_period (periods.getD 1 0) = 10000)
    ∧ (Client.period_label 2 = "1 minute" ∧ parse_period (periods.getD 2 0) = 60000)
    ∧ (Client.period_label 3 = "10 minutes" ∧ parse_period (periods.getD 3 0) = 600000)
    ∧ (Client.period_label 4 = "No update" ∧ parse_period (periods.getD 4 0) = 0)
    ∧ (∀ (s : Client.State) (i : Nat),
        (Client.choose_period s i).effects
          = s.effects ++ [Effect.lcd_print "Hold PB0 to choose" 3,
              Effect.lcd_print "Choose your period update: " 4,
              Effect.lcd_print (Client.period_label i) 5]) := by
  refine ⟨by decide, ⟨rfl, by decide⟩, ⟨rfl, by decide⟩, ⟨rfl, by decide⟩, ⟨rfl, by decide⟩,
    ⟨rfl, by decide⟩, ?_⟩
  intro s i
  simp [Client.choose_period, Client.emit]

/-! ### Lists of fixed length -/

theorem list_length_eight {α : Type} (l : List α) (h : l.length = 8) :
    ∃ a0 a1 a2 a3 a4 a5 a6 a7, l = [a0, a1, a2, a3, a4, a5, a6, a7] := by
  match l, h with
  | [a0, a1, a2, a3, a4, a5, a6, a7], _ => exact ⟨a0, a1, a2, a3, a4, a5, a6, a7, rfl⟩

theorem range_four : List.range 4 = [0, 1, 2, 3] := by decide

theorem range_eight : List.range 8 = [0, 1, 2, 3, 4, 5, 6, 7] := by decide

/-! ### Sensor payload -/

theorem pack_sensor_data_eq (h0 h1 h2 h3 t0 t1 t2 t3 : Nat) (sd : List Nat)
    (hsd : sd.length = 8) :
    Client.pack_sensor_data [h0, h1, h2, h3] [t0, t1, t2, t3] sd
      = [h0, h1, h2, h3, t0, t1, t2, t3] := by
  obtain ⟨a0, a1, a2, a3, a4, a5, a6, a7, rfl⟩ := list_length_eight sd hsd
  simp [Client.pack_sensor_data, range_four]

theorem fold_field_low (b0 b1 b2 b3 b4 b5 b6 b7 : Nat) :
    Server.fold_field [b0, b1, b2, b3, b4, b5, b6, b7] 3
      = (((((((0 <<< 8 ||| b3) % 2 ^ 32) <<< 8 ||| b2) % 2 ^ 32) <<< 8 ||| b1) % 2 ^ 32)
          <<< 8 ||| b0) % 2 ^ 32 := by
  simp [Server.fold_field]

theorem fold_field_high (b0 b1 b2 b3 b4 b5 b6 b7 : Nat) :
    Server.fold_field [b0, b1, b2, b3, b4, b5, b6, b7] 7
      = (((((((0 <<< 8 ||| b7) % 2 ^ 32) <<< 8 ||| b6) % 2 ^ 32) <<< 8 ||| b5) % 2 ^ 32)
          <<< 8 ||| b4) % 2 ^ 32 := by
  simp [Server.fold_field]

theorem fold_le_bytes32 (w : Nat) (hw : w < 2 ^ 32) :
    (((((((0 <<< 8 ||| (w / 2 ^ 24 % 2 ^ 8)) % 2 ^ 32) <<< 8 ||| (w / 2 ^ 16 % 2 ^ 8)) % 2 ^ 32)
        <<< 8 ||| (w / 2 ^ 8 % 2 ^ 8)) % 2 ^ 32) <<< 8 ||| (w % 2 ^ 8)) % 2 ^ 32 = w := by
  rw [shl8_or _ _ (by omega), shl8_or _ _ (by omega), shl8_or _ _ (by omega),
    shl8_or _ _ (by omega)]
  omega

/-- C3: round trip of the sensor payload. When the sensor read succeeds with a 32-bit humidity
and a signed 32-bit temperature (negative values included), `read_sensor_data` packs humidity
least-significant byte first into bytes 0..3 and temperature least-significant byte first into
bytes 4..7, and the two decoding folds of the server (bytes 3 down to 0, bytes 7 down to 4,
modulo 2^32, the latter read as `int32_t`) return the original humidity and temperature. -/
theorem C3_sensor_payload_round_trip (s : Client.State) (r : Client.RhtRead)
    (hs : s.sensor_data.length = 8) (hok : r.status = SL_STATUS_OK)
    (hrh : r.rh < 2 ^ 32) (ht : -2 ^ 31 ≤ r.t ∧ r.t < 2 ^ 31) :
    (Client.read_sensor_data s r).sensor_data = le_bytes32 r.rh ++ le_bytes32 (int32Bits r.t)
    ∧ Server.fold_field (Client.read_sensor_data s r).sensor_data 3 = r.rh
    ∧ toInt32 (Server.fold_field (Client.read_sensor_data s r).sensor_data 7) = r.t := by
  have hmod : r.rh % 2 ^ 32 = r.rh := Nat.mod_eq_of_lt hrh
  have hp : (Client.read_sensor_data s r).sensor_data
      = le_bytes32 r.rh ++ le_bytes32 (int32Bits r.t) := by
    simp only [Client.read_sensor_data, hok, ne_eq, not_true_eq_false, if_false, hmod]
    simp only [le_bytes32]
    rw [pack_sensor_data_eq _ _ _ _ _ _ _ _ _ hs]
    rfl
  have hbits : int32Bits r.t < 2 ^ 32 := by unfold int32Bits; omega
  refine ⟨hp, ?_, ?_⟩
  · rw [hp]
    simp only [le_bytes32, List.cons_append, List.nil_append]
    rw [fold_field_low, fold_le_bytes32 _ hrh]
  · rw [hp]
    simp only [le_bytes32, List.cons_append, List.nil_append]
    rw [fold_field_high, fold_le_bytes32 _ hbits]
    unfold toInt32 int32Bits
    split <;> omega

/-- Witness of C3 with a negative temperature: humidity 45123, temperature -5250. -/
theorem C3_sensor_payload_round_trip_witness :
    (Client.read_sensor_data Client.init { status := 0, rh := 45123, t := -5250 }).sensor_data
      = le_bytes32 45123 ++ le_bytes32 (int32Bits (-5250))
    ∧ Server.fold_field
        (Client.read_sensor_data Client.init { status := 0, rh := 45123, t := -5250 }).sensor_data
        3 = 45123
    ∧ toInt32 (Server.fold_field
        (Client.read_sensor_data Client.init { status := 0, rh := 45123, t := -5250 }).sensor_data
        7) = -5250 :=
  C3_sensor_payload_round_trip Client.init { status := 0, rh := 45123, t := -5250 }
    (by decide) (by decide) (by decide) (by decide)

/-! ### Period selection -/

theorem periods_length : periods.length = 5 := by decide

theorem choose_period_fields (s : Client.State) (c : Nat) :
    (Client.choose_period s c).select_update_mode = s.select_update_mode
    ∧ (Client.choose_period s c).period_idx = s.period_idx
    ∧ (Client.choose_period s c).periodic_update_timer = s.periodic_update_timer
    ∧ (Client.choose_period s c).periodic_timer_ms = s.periodic_timer_ms := by
  simp [Client.choose_period, Client.emit]

theorem short_press_button_0 (s : Client.State) (hm : s.select_update_mode = true) :
    (Client.app_button_press_cb s Client.BUTTON_PRESS_BUTTON_0
        APP_BUTTON_PRESS_DURATION_SHORT).select_update_mode = true
    ∧ (Client.app_button_press_cb s Client.BUTTON_PRESS_BUTTON_0
        APP_BUTTON_PRESS_DURATION_SHORT).period_idx
      = if s.period_idx < 4 then (s.period_idx + 1) % 2 ^ 8 else 0 := by
  simp only [Client.app_button_press_cb, hm, if_true,
    Client.app_button_press_select_period_update_cb, periods_length]
  by_cases h : s.period_idx < 4
  · simp [h, choose_period_fields, hm]
  · simp [h, choose_period_fields, hm]

theorem short_press_button_1 (s : Client.State) (hm : s.select_update_mode = true) :
    (Client.app_button_press_cb s Client.BUTTON_PRESS_BUTTON_1
        APP_BUTTON_PRESS_DURATION_SHORT).select_update_mode = true
    ∧ (Client.app_button_press_cb s Client.BUTTON_PRESS_BUTTON_1
        APP_BUTTON_PRESS_DURATION_SHORT).period_idx
      = if s.period_idx > 0 then s.period_idx - 1 else 4 := by
  have hb : ¬ Client.BUTTON_PRESS_BUTTON_1 = Client.BUTTON_PRESS_BUTTON_0 := by decide
  simp only [Client.app_button_press_cb, hm, if_true,
    Client.app_button_press_select_period_update_cb, periods_length, hb, if_false]
  by_cases h : s.period_idx > 0
  · simp [h, choose_period_fields, hm]
  · simp [h, choose_period_fields, hm]

/-- C5: in Selecting mode, with the five candidates and an index `i` in [0,5), a short press of
button 0 leaves the mode Selecting and sets the index to `(i + 1) mod 5`, and a short press of
button 1 leaves the mode Selecting and sets the index to `(i - 1 + 5) mod 5`; past either end
the index wraps to the other end. -/
theorem C5_short_press_cycles (s : Client.State) (hm : s.select_update_mode = true)
    (hi : s.period_idx < 5) :
    periods.length = 5
    ∧ (Client.app_button_press_cb s Client.BUTTON_PRESS_BUTTON_0
        APP_BUTTON_PRESS_DURATION_SHORT).select_update_mode = true
    ∧ (Client.app_button_press_cb s Client.BUTTON_PRESS_BUTTON_0
        APP_BUTTON_PRESS_DURATION_SHORT).period_idx = (s.period_idx + 1) % 5
    ∧ (Client.app_button_press_cb s Client.BUTTON_PRESS_BUTTON_1
        APP_BUTTON_PRESS_DURATION_SHORT).select_update_mode = true
    ∧ ((Client.app_button_press_cb s Client.BUTTON_PRESS_BUTTON_1
        APP_BUTTON_PRESS_DURATION_SHORT).period_idx : Int) = ((s.period_idx : Int) - 1 + 5) % 5
    ∧ (s.period_idx = 4 → (Client.app_button_press_cb s Client.BUTTON_PRESS_BUTTON_0
        APP_BUTTON_PRESS_DURATION_SHORT).period_idx = 0)
    ∧ (s.period_idx = 0 → (Client.app_button_press_cb s Client.BUTTON_PRESS_BUTTON_1
        APP_BUTTON_PRESS_DURATION_SHORT).period_idx = 4) := by
  have h0 := short_press_button_0 s hm
  have h1 := short_press_button_1 s hm
  refine ⟨periods_length, h0.1, ?_, h1.1, ?_, ?_, ?_⟩
  · rw [h0.2]; split <;> omega
  · rw [h1.2]; split <;> omega
  · intro h; rw [h0.2]; split <;> omega
  · intro h; rw [h1.2]; split <;> omega

/-- Witness of C5 at index 4 in Selecting mode. -/
theorem C5_short_press_cycles_witness :
    periods.length = 5
    ∧ (Client.app_button_press_cb { Client.init with select_update_mode := true, period_idx := 4 }
        Client.BUTTON_PRESS_BUTTON_0 APP_BUTTON_PRESS_DURATION_SHORT).select_update_mode = true
    ∧ (Client.app_button_press_cb { Client.init with select_update_mode := true, period_idx := 4 }
        Client.BUTTON_PRESS_BUTTON_0 APP_BUTTON_PRESS_DURATION_SHORT).period_idx = (4 + 1) % 5
    ∧ (Client.app_button_press_cb { Client.init with select_update_mode := true, period_idx := 4 }
        Client.BUTTON_PRESS_BUTTON_1 APP_BUTTON_PRESS_DURATION_SHORT).select_update_mode = true
    ∧ ((Client.app_button_press_cb { Client.init with select_update_mode := true, period_idx := 4 }
        Client.BUTTON_PRESS_BUTTON_1 APP_BUTTON_PRESS_DURATION_SHORT).period_idx : Int)
        = (((4 : Nat) : Int) - 1 + 5) % 5
    ∧ ((4 : Nat) = 4 →
        (Client.app_button_press_cb { Client.init with select_update_mode := true, period_idx := 4 }
        Client.BUTTON_PRESS_BUTTON_0 APP_BUTTON_PRESS_DURATION_SHORT).period_idx = 0)
    ∧ ((4 : Nat) = 0 →
        (Client.app_button_press_cb { Client.init with select_update_mode := true, period_idx := 4 }
        Client.BUTTON_PRESS_BUTTON_1 APP_BUTTON_PRESS_DURATION_SHORT).period_idx = 4) :=
  C5_short_press_cycles { Client.init with select_update_mode := true, period_idx := 4 }
    rfl (by decide)

theorem read_sensor_data_fields (s : Client.State) (r : Client.RhtRead) :
    (Client.read_sensor_data s r).select_update_mode = s.select_update_mode
    ∧ (Client.read_sensor_data s r).period_idx = s.period_idx
    ∧ (Client.read_sensor_data s r).periodic_update_timer = s.periodic_update_timer := by
  unfold Client.read_sensor_data
  by_cases h : r.status = SL_STATUS_OK <;> simp [h, Client.emit]

theorem trigger_fields (cfg : Config) (s : Client.State) (extsignals : Nat)
    (env : Client.SignalEnv) (hsig : extsignals % 2 ^ 32 &&& Client.EX_B1_PRESS ≠ 0) :
    (Client.sl_bt_on_event cfg s extsignals env).select_update_mode = true
    ∧ (Client.sl_bt_on_event cfg s extsignals env).period_idx = 0 := by
  unfold Client.sl_bt_on_event
  simp only [hsig, ne_eq, not_false_eq_true, if_true]
  simp [choose_period_fields]

theorem advance_step (s : Client.State) (n i : Nat)
    (h : (Client.advance^[n] s).select_update_mode = true ∧ (Client.advance^[n] s).period_idx = i) :
    (Client.advance^[n + 1] s).select_update_mode = true
    ∧ (Client.advance^[n + 1] s).period_idx = if i < 4 then (i + 1) % 2 ^ 8 else 0 := by
  rw [Function.iterate_succ_apply']
  have h0 := short_press_button_0 (Client.advance^[n] s) h.1
  rw [h.2] at h0
  exact h0

/-- C6: the trigger event (an external signal with the `EX_B1_PRESS` bit), handled in any state
and so in any Idle state whatever index was committed before, enters Selecting with index 0;
six subsequent short presses of button 0 keep the mode Selecting and visit the indices
1, 2, 3, 4, 0, 1 in that order, so the index is back at 0 after exactly five presses and at 1
after the sixth. -/
theorem C6_trigger_then_six_advances (cfg : Config) (s : Client.State) (extsignals : Nat)
    (env : Client.SignalEnv) (hidle : s.select_update_mode = false)
    (hsig : extsignals % 2 ^ 32 &&& Client.EX_B1_PRESS ≠ 0) :
    (Client.sl_bt_on_event cfg s extsignals env).select_update_mode = true
    ∧ (Client.sl_bt_on_event cfg s extsignals env).period_idx = 0
    ∧ [1, 2, 3, 4, 5, 6].map
        (fun n => (Client.advance^[n] (Client.sl_bt_on_event cfg s extsignals env)).period_idx)
        = [1, 2, 3, 4, 0, 1]
    ∧ [1, 2, 3, 4, 5, 6].map
        (fun n =>
          (Client.advance^[n] (Client.sl_bt_on_event cfg s extsignals env)).select_update_mode)
        = [true, true, true, true, true, true] := by
  have _ := hidle
  have t := trigger_fields cfg s extsignals env hsig
  have a0 : (Client.advance^[0] (Client.sl_bt_on_event cfg s extsignals env)).select_update_mode
      = true ∧ (Client.advance^[0] (Client.sl_bt_on_event cfg s extsignals env)).period_idx = 0 :=
    t
  have a1 := advance_step _ 0 0 a0
  have a2 := advance_step _ 1 _ a1
  have a3 := advance_step _ 2 _ a2
  have a4 := advance_step _ 3 _ a3
  have a5 := advance_step _ 4 _ a4
  have a6 := advance_step _ 5 _ a5
  refine ⟨t.1, t.2, ?_, ?_⟩
  · simp only [List.map_cons, List.map_nil]
    rw [a1.2, a2.2, a3.2, a4.2, a5.2, a6.2]
    decide
  · simp only [List.map_cons, List.map_nil]
    rw [a1.1, a2.1, a3.1, a4.1, a5.1, a6.1]

/-- Witness of C6: from an Idle state with committed index 3, the signal `EX_B1_PRESS`. -/
theorem C6_trigger_then_six_advances_witness :
    (Client.sl_bt_on_event { sensor_status := 1, DATA_LENGTH := 8 }
        { Client.init with period_idx := 3 } Client.EX_B1_PRESS
        { rht_b0 := { status := 0, rh := 0, t := 0 }, sc_set := 0, sc_publish := 0,
          rht_b1 := { status := 0, rh := 45123, t := 21500 } }).select_update_mode = true
    ∧ (Client.sl_bt_on_event { sensor_status := 1, DATA_LENGTH := 8 }
        { Client.init with period_idx := 3 } Client.EX_B1_PRESS
        { rht_b0 := { status := 0, rh := 0, t := 0 }, sc_set := 0, sc_publish := 0,
          rht_b1 := { status := 0, rh := 45123, t := 21500 } }).period_idx = 0
    ∧ [1, 2, 3, 4, 5, 6].map
        (fun n => (Client.advance^[n] (Client.sl_bt_on_event { sensor_status := 1, DATA_LENGTH := 8 }
          { Client.init with period_idx := 3 } Client.EX_B1_PRESS
          { rht_b0 := { status := 0, rh := 0, t := 0 }, sc_set := 0, sc_publish := 0,
            rht_b1 := { status := 0, rh := 45123, t := 21500 } })).period_idx)
        = [1, 2, 3, 4, 0, 1]
    ∧ [1, 2, 3, 4, 5, 6].map
        (fun n => (Client.advance^[n] (Client.sl_bt_on_event { sensor_status := 1, DATA_LENGTH := 8 }
          { Client.init with period_idx := 3 } Client.EX_B1_PRESS
          { rht_b0 := { status := 0, rh := 0, t := 0 }, sc_set := 0, sc_publish := 0,
            rht_b1 := { status := 0, rh := 45123, t := 21500 } })).select_update_mode)
        = [true, true, true, true, true, true] :=
  C6_trigger_then_six_advances { sensor_status := 1, DATA_LENGTH := 8 }
    { Client.init with period_idx := 3 } Client.EX_B1_PRESS
    { rht_b0 := { status := 0, rh := 0, t := 0 }, sc_set := 0, sc_publish := 0,
      rht_b1 := { status := 0, rh := 45123, t := 21500 } } rfl (by decide)

theorem setup_periodcal_update_fields (s : Client.State) (interval : Nat) :
    (Client.setup_periodcal_update s interval).select_update_mode = s.select_update_mode
    ∧ (Client.setup_periodcal_update s interval).period_idx = s.period_idx
    ∧ (Client.setup_periodcal_update s interval).periodic_timer_ms = parse_period interval
    ∧ (Client.setup_periodcal_update s interval).periodic_update_timer
      = if parse_period interval > 0 then
          { running := true, timeout_ms := parse_period interval, is_periodic := true }
        else app_timer_stop s.periodic_update_timer := by
  unfold Client.setup_periodcal_update
  by_cases h : parse_period interval > 0
  · simp [h, app_timer_start]
  · simp [h, Client.emit]

theorem print_update_time_fields (s : Client.State) (c : Nat) :
    (Client.print_update_time s c).select_update_mode = s.select_update_mode
    ∧ (Client.print_update_time s c).period_idx = s.period_idx
    ∧ (Client.print_update_time s c).periodic_update_timer = s.periodic_update_timer := by
  unfold Client.print_update_time
  split <;> simp [Client.emit]

/-- C7: in Selecting mode with index `i` in [0,5), a long press of button 0 sets the mode to
Idle, leaves the index unchanged and reconfigures the periodic timer from
`d = parse_period(periods[i])` whatever the timer was before: `periodic_timer_ms` is `d`; if
`d > 0` the timer is running, repeating, with period exactly `d` ms; if `d = 0` the timer has
been stopped and is not started. -/
theorem C7_long_press_commits (s : Client.State) (hm : s.select_update_mode = true)
    (hi : s.period_idx < 5) :
    (Client.app_button_press_cb s Client.BUTTON_PRESS_BUTTON_0
        APP_BUTTON_PRESS_DURATION_LONG).select_update_mode = false
    ∧ (Client.app_button_press_cb s Client.BUTTON_PRESS_BUTTON_0
        APP_BUTTON_PRESS_DURATION_LONG).period_idx = s.period_idx
    ∧ (Client.app_button_press_cb s Client.BUTTON_PRESS_BUTTON_0
        APP_BUTTON_PRESS_DURATION_LONG).periodic_timer_ms
        = parse_period (periods.getD s.period_idx 0)
    ∧ (parse_period (periods.getD s.period_idx 0) > 0 →
        (Client.app_button_press_cb s Client.BUTTON_PRESS_BUTTON_0
          APP_BUTTON_PRESS_DURATION_LONG).periodic_update_timer
          = { running := true, timeout_ms := parse_period (periods.getD s.period_idx 0),
              is_periodic := true })
    ∧ (parse_period (periods.getD s.period_idx 0) = 0 →
        (Client.app_button_press_cb s Client.BUTTON_PRESS_BUTTON_0
          APP_BUTTON_PRESS_DURATION_LONG).periodic_update_timer
          = { s.periodic_update_timer with running := false }) := by
  have _ := hi
  have hd : ¬ APP_BUTTON_PRESS_DURATION_LONG = APP_BUTTON_PRESS_DURATION_SHORT := by decide
  simp only [Client.app_button_press_cb, hm, if_true,
    Client.app_button_press_select_period_update_cb, hd, if_false]
  simp only [Client.emit, setup_periodcal_update_fields, print_update_time_fields]
  refine ⟨trivial, trivial, trivial, ?_, ?_⟩
  · intro h
    rw [if_pos h]
  · intro h
    rw [if_neg (by omega)]
    rfl

/-- Witness of C7: index 1 (10 seconds) committed while a 1-second timer is running. -/
theorem C7_long_press_commits_witness :
    (Client.app_button_press_cb
        { Client.init with
          select_update_mode := true
          period_idx := 1
          periodic_update_timer := { running := true, timeout_ms := 1000, is_periodic := true } }
        Client.BUTTON_PRESS_BUTTON_0 APP_BUTTON_PRESS_DURATION_LONG).periodic_update_timer
      = { running := true, timeout_ms := 10000, is_periodic := true } :=
  (C7_long_press_commits
    { Client.init with
      select_update_mode := true
      period_idx := 1
      periodic_update_timer := { running := true, timeout_ms := 1000, is_periodic := true } }
    rfl (by decide)).2.2.2.1 (by decide)

/-! ### Duplicate filter and ring store -/

theorem scan_duplicate_iff (data cache : List Nat) :
    ∀ (n i : Nat), Server.scan_duplicate data cache i n = true
      ↔ ∀ j < n, data.getD (i + j) 0 = cache.getD (i + j) 0 := by
  intro n
  induction n with
  | zero =>
    intro i
    simp [Server.scan_duplicate]
  | succ n ih =>
    intro i
    unfold Server.scan_duplicate
    by_cases h : data.getD i 0 = cache.getD i 0
    · rw [if_neg (by simpa using h), ih (i + 1)]
      constructor
      · intro hj j hlt
        cases j with
        | zero => simpa using h
        | succ k =>
          have := hj k (by omega)
          rw [show i + (k + 1) = i + 1 + k by omega]
          exact this
      · intro hj j hlt
        have := hj (j + 1) (by omega)
        rw [show i + 1 + j = i + (j + 1) by omega]
        exact this
    · rw [if_pos (by simpa using h)]
      constructor
      · intro hf
        exact absurd hf (by decide)
      · intro hj
        exact absurd (by simpa using hj 0 (by omega)) h

theorem is_duplicate_of_eq (s : Server.State) (rx : Server.RxEvt)
    (hlen : rx.payload.length = 8)
    (heq : ∀ i < 8, rx.payload.getD i 0 = s.cache_data.getD i 0) :
    Server.is_duplicate s rx = true := by
  unfold Server.is_duplicate
  rw [if_pos hlen, scan_duplicate_iff]
  intro j hj
  rw [Nat.zero_add]
  exact heq j hj

theorem is_duplicate_of_ne (s : Server.State) (rx : Server.RxEvt)
    (hne : ∃ i < 8, rx.payload.getD i 0 ≠ s.cache_data.getD i 0) :
    Server.is_duplicate s rx = false := by
  unfold Server.is_duplicate
  split
  · cases hd : Server.scan_duplicate rx.payload s.cache_data 0 8 with
    | false => rfl
    | true =>
      obtain ⟨i, hi, hne⟩ := hne
      have := (scan_duplicate_iff _ _ 8 0).1 hd i hi
      rw [Nat.zero_add] at this
      exact absurd this hne
  · rfl

theorem update_cache_eq (cache data : List Nat) (hc : cache.length = 8)
    (hd : data.length = 8) : Server.update_cache cache data = data := by
  obtain ⟨c0, c1, c2, c3, c4, c5, c6, c7, rfl⟩ := list_length_eight cache hc
  obtain ⟨d0, d1, d2, d3, d4, d5, d6, d7, rfl⟩ := list_length_eight data hd
  simp [Server.update_cache, range_eight]

theorem decode_opcode_fields (cfg : Config) (s : Server.State) (rx : Server.RxEvt) :
    (Server.decode_opcode cfg s rx).cache_data = s.cache_data
    ∧ (Server.decode_opcode cfg s rx).store_data = s.store_data
    ∧ (Server.decode_opcode cfg s rx).store_state = s.store_state := by
  unfold Server.decode_opcode
  split
  · dsimp only
    split <;> simp [Server.emit]
  · exact ⟨rfl, rfl, rfl⟩

theorem on_event_duplicate (cfg : Config) (s : Server.State) (rx : Server.RxEvt)
    (h : Server.is_duplicate s rx = true) :
    Server.sl_btmesh_on_event cfg s rx
      = Server.emit s (.app_log "Duplicate payload detected, skipping processing." []) := by
  unfold Server.sl_btmesh_on_event
  rw [if_pos h]

theorem on_event_accept (cfg : Config) (s : Server.State) (rx : Server.RxEvt)
    (h : Server.is_duplicate s rx = false) (hlen : rx.payload.length = 8) :
    (Server.sl_btmesh_on_event cfg s rx).cache_data = Server.update_cache s.cache_data rx.payload
    ∧ (Server.sl_btmesh_on_event cfg s rx).store_data
      = s.store_data.set s.store_state
          (Server.fold_data_value (Server.update_cache s.cache_data rx.payload))
    ∧ (Server.sl_btmesh_on_event cfg s rx).store_state
      = if s.store_state < 7 then s.store_state + 1 else 0 := by
  unfold Server.sl_btmesh_on_event
  rw [if_neg (by simp [h])]
  simp only [decode_opcode_fields, Server.emit, hlen, if_true]
  refine ⟨?_, ?_, ?_⟩
  · split <;> rfl
  · split <;> rfl
  · split <;> rfl

/-- C9: for every server state and every inbound message whose payload has length 8 and equals
the dedup cache byte for byte, the receive handler drops the message: cache, ring store and
cursor are unchanged and the only call made is the log of the duplicate, so nothing is decoded.
In particular, whatever the first of two messages with the same 8-byte payload did, the second
one is dropped. -/
theorem C9_duplicate_dropped (cfg : Config) (s : Server.State) (rx : Server.RxEvt)
    (hlen : rx.payload.length = 8)
    (heq : ∀ i < 8, rx.payload.getD i 0 = s.cache_data.getD i 0) :
    (Server.is_duplicate s rx = true
      ∧ (Server.sl_btmesh_on_event cfg s rx).cache_data = s.cache_data
      ∧ (Server.sl_btmesh_on_event cfg s rx).store_data = s.store_data
      ∧ (Server.sl_btmesh_on_event cfg s rx).store_state = s.store_state
      ∧ (Server.sl_btmesh_on_event cfg s rx).effects
        = s.effects ++ [Effect.app_log "Duplicate payload detected, skipping processing." []])
    ∧ (∀ (s0 : Server.State) (rx0 : Server.RxEvt),
        s0.cache_data.length = 8 → rx0.payload = rx.payload →
        Server.is_duplicate (Server.sl_btmesh_on_event cfg s0 rx0) rx = true
        ∧ (Server.sl_btmesh_on_event cfg (Server.sl_btmesh_on_event cfg s0 rx0) rx).cache_data
          = (Server.sl_btmesh_on_event cfg s0 rx0).cache_data
        ∧ (Server.sl_btmesh_on_event cfg (Server.sl_btmesh_on_event cfg s0 rx0) rx).store_data
          = (Server.sl_btmesh_on_event cfg s0 rx0).store_data
        ∧ (Server.sl_btmesh_on_event cfg (Server.sl_btmesh_on_event cfg s0 rx0) rx).store_state
          = (Server.sl_btmesh_on_event cfg s0 rx0).store_state
        ∧ (Server.sl_btmesh_on_event cfg (Server.sl_btmesh_on_event cfg s0 rx0) rx).effects
          = (Server.sl_btmesh_on_event cfg s0 rx0).effects
            ++ [Effect.app_log "Duplicate payload detected, skipping processing." []]) := by
  have drop : ∀ (t : Server.State), Server.is_duplicate t rx = true →
      Server.is_duplicate t rx = true
      ∧ (Server.sl_btmesh_on_event cfg t rx).cache_data = t.cache_data
      ∧ (Server.sl_btmesh_on_event cfg t rx).store_data = t.store_data
      ∧ (Server.sl_btmesh_on_event cfg t rx).store_state = t.store_state
      ∧ (Server.sl_btmesh_on_event cfg t rx).effects
        = t.effects ++ [Effect.app_log "Duplicate payload detected, skipping processing." []] := by
    intro t ht
    rw [on_event_duplicate cfg t rx ht]
    exact ⟨ht, rfl, rfl, rfl, rfl⟩
  refine ⟨drop s (is_duplicate_of_eq s rx hlen heq), ?_⟩
  intro s0 rx0 hc hp
  apply drop
  apply is_duplicate_of_eq _ _ hlen
  have hlen0 : rx0.payload.length = 8 := by rw [hp]; exact hlen
  cases hd : Server.is_duplicate s0 rx0 with
  | true =>
    rw [on_event_duplicate cfg s0 rx0 hd]
    unfold Server.is_duplicate at hd
    rw [if_pos hlen0, scan_duplicate_iff] at hd
    intro i hi
    have := hd i hi
    rw [Nat.zero_add, hp] at this
    exact this
  | false =>
    rw [(on_event_accept cfg s0 rx0 hd hlen0).1, update_cache_eq _ _ hc hlen0, hp]
    intro i _
    rfl

/-- Witness of C9: the cache holds the payload 1..8 and that payload arrives. -/
theorem C9_duplicate_dropped_witness :
    (Server.sl_btmesh_on_event { sensor_status := 1, DATA_LENGTH := 8 }
        { Server.init with cache_data := [1, 2, 3, 4, 5, 6, 7, 8], store_state := 3 }
        { elem_index := 0, vendor_id := 0x1221, model_id := 0x1111, source_address := 5,
          destination_address := 0xC001, va_index := 0, appkey_index := 0, nonrelayed := 0,
          opcode := 1, final := 1, payload := [1, 2, 3, 4, 5, 6, 7, 8] }).store_state = 3 :=
  (C9_duplicate_dropped { sensor_status := 1, DATA_LENGTH := 8 }
    { Server.init with cache_data := [1, 2, 3, 4, 5, 6, 7, 8], store_state := 3 }
    { elem_index := 0, vendor_id := 0x1221, model_id := 0x1111, source_address := 5,
      destination_address := 0xC001, va_index := 0, appkey_index := 0, nonrelayed := 0,
      opcode := 1, final := 1, payload := [1, 2, 3, 4, 5, 6, 7, 8] }
    rfl (by decide)).1.2.2.2.1

theorem fold_data_value_eq (p0 p1 p2 p3 p4 p5 p6 p7 : Nat)
    (h0 : p0 < 256) (h1 : p1 < 256) (h2 : p2 < 256) (h3 : p3 < 256)
    (h4 : p4 < 256) (h5 : p5 < 256) (h6 : p6 < 256) (h7 : p7 < 256) :
    Server.fold_data_value [p0, p1, p2, p3, p4, p5, p6, p7]
      = p0 * 2 ^ 56 + p1 * 2 ^ 48 + p2 * 2 ^ 40 + p3 * 2 ^ 32 + p4 * 2 ^ 24 + p5 * 2 ^ 16
        + p6 * 2 ^ 8 + p7 := by
  simp only [Server.fold_data_value, range_eight, List.foldl_cons, List.foldl_nil,
    List.getD_cons_zero, List.getD_cons_succ]
  rw [shl8_or _ _ h0, shl8_or _ _ h1, shl8_or _ _ h2, shl8_or _ _ h3, shl8_or _ _ h4,
    shl8_or _ _ h5, shl8_or _ _ h6, shl8_or _ _ h7]
  omega

/-- C10: for every server state with cursor `k` in [0,8) and every inbound 8-byte payload `p`
that differs from the dedup cache in at least one byte, the receive handler accepts the
message: afterwards the cache equals `p`, slot `k` of the ring store holds the 64-bit value
whose bytes are `p[0]`, ..., `p[7]` from the most significant down, the other seven slots are
unchanged, and the cursor is `(k + 1) mod 8`. -/
theorem C10_new_payload_accepted (cfg : Config) (s : Server.State) (rx : Server.RxEvt)
    (hc : s.cache_data.length = 8) (hst : s.store_data.length = 8) (hk : s.store_state < 8)
    (hlen : rx.payload.length = 8) (hb : ∀ i < 8, rx.payload.getD i 0 < 256)
    (hne : ∃ i < 8, rx.payload.getD i 0 ≠ s.cache_data.getD i 0) :
    Server.is_duplicate s rx = false
    ∧ (Server.sl_btmesh_on_event cfg s rx).cache_data = rx.payload
    ∧ (Server.sl_btmesh_on_event cfg s rx).store_data.getD s.store_state 0
      = rx.payload.getD 0 0 * 2 ^ 56 + rx.payload.getD 1 0 * 2 ^ 48
        + rx.payload.getD 2 0 * 2 ^ 40 + rx.payload.getD 3 0 * 2 ^ 32
        + rx.payload.getD 4 0 * 2 ^ 24 + rx.payload.getD 5 0 * 2 ^ 16
        + rx.payload.getD 6 0 * 2 ^ 8 + rx.payload.getD 7 0
    ∧ (∀ j, j ≠ s.store_state →
        (Server.sl_btmesh_on_event cfg s rx).store_data.getD j 0 = s.store_data.getD j 0)
    ∧ (Server.sl_btmesh_on_event cfg s rx).store_data.length = 8
    ∧ (Server.sl_btmesh_on_event cfg s rx).store_state = (s.store_state + 1) % 8 := by
  have hd := is_duplicate_of_ne s rx hne
  obtain ⟨hcache, hstore, hcur⟩ := on_event_accept cfg s rx hd hlen
  rw [update_cache_eq _ _ hc hlen] at hcache hstore
  have hfold : Server.fold_data_value rx.payload
      = rx.payload.getD 0 0 * 2 ^ 56 + rx.payload.getD 1 0 * 2 ^ 48
        + rx.payload.getD 2 0 * 2 ^ 40 + rx.payload.getD 3 0 * 2 ^ 32
        + rx.payload.getD 4 0 * 2 ^ 24 + rx.payload.getD 5 0 * 2 ^ 16
        + rx.payload.getD 6 0 * 2 ^ 8 + rx.payload.getD 7 0 := by
    have b0 := hb 0 (by omega)
    have b1 := hb 1 (by omega)
    have b2 := hb 2 (by omega)
    have b3 := hb 3 (by omega)
    have b4 := hb 4 (by omega)
    have b5 := hb 5 (by omega)
    have b6 := hb 6 (by omega)
    have b7 := hb 7 (by omega)
    obtain ⟨p0, p1, p2, p3, p4, p5, p6, p7, hp⟩ := list_length_eight rx.payload hlen
    rw [hp] at b0 b1 b2 b3 b4 b5 b6 b7 ⊢
    exact fold_data_value_eq p0 p1 p2 p3 p4 p5 p6 p7 b0 b1 b2 b3 b4 b5 b6 b7
  refine ⟨hd, hcache, ?_, ?_, ?_, ?_⟩
  · rw [hstore, ← hfold]
    simp [List.getD_eq_getElem?_getD, List.getElem?_set, hst, hk]
  · intro j hj
    rw [hstore]
    simp [List.getD_eq_getElem?_getD, List.getElem?_set, Ne.symm hj]
  · rw [hstore, List.length_set, hst]
  · rw [hcur]
    split <;> omega

/-- Witness of C10: the cache holds 1..8, the cursor is 7 and a payload that differs from the
cache in its last byte only arrives. -/
theorem C10_new_payload_accepted_witness :
    (Server.sl_btmesh_on_event { sensor_status := 1, DATA_LENGTH := 8 }
        { Server.init with cache_data := [1, 2, 3, 4, 5, 6, 7, 8], store_state := 7 }
        { elem_index := 0, vendor_id := 0x1221, model_id := 0x1111, source_address := 5,
          destination_address := 0xC001, va_index := 0, appkey_index := 0, nonrelayed := 0,
          opcode := 1, final := 1, payload := [1, 2, 3, 4, 5, 6, 7, 9] }).store_state
      = (7 + 1) % 8 :=
  (C10_new_payload_accepted { sensor_status := 1, DATA_LENGTH := 8 }
    { Server.init with cache_data := [1, 2, 3, 4, 5, 6, 7, 8], store_state := 7 }
    { elem_index := 0, vendor_id := 0x1221, model_id := 0x1111, source_address := 5,
      destination_address := 0xC001, va_index := 0, appkey_index := 0, nonrelayed := 0,
      opcode := 1, final := 1, payload := [1, 2, 3, 4, 5, 6, 7, 9] }
    rfl rfl (by decide) rfl (by decide) ⟨7, by decide, by decide⟩).2.2.2.2.2

/-! ### Ring store over sequences of messages -/

theorem exists_ne_of_ne (a b : List Nat) (ha : a.length = 8) (hb : b.length = 8)
    (h : a ≠ b) : ∃ i < 8, a.getD i 0 ≠ b.getD i 0 := by
  by_contra hcon
  apply h
  have hall : ∀ i < 8, a.getD i 0 = b.getD i 0 := by
    intro i hi
    by_contra hne
    exact hcon ⟨i, hi, hne⟩
  obtain ⟨a0, a1, a2, a3, a4, a5, a6, a7, rfl⟩ := list_length_eight a ha
  obtain ⟨b0, b1, b2, b3, b4, b5, b6, b7, rfl⟩ := list_length_eight b hb
  have e0 := hall 0 (by omega)
  have e1 := hall 1 (by omega)
  have e2 := hall 2 (by omega)
  have e3 := hall 3 (by omega)
  have e4 := hall 4 (by omega)
  have e5 := hall 5 (by omega)
  have e6 := hall 6 (by omega)
  have e7 := hall 7 (by omega)
  simp only [List.getD_cons_zero, List.getD_cons_succ] at e0 e1 e2 e3 e4 e5 e6 e7
  rw [e0, e1, e2, e3, e4, e5, e6, e7]

theorem accept_summary (cfg : Config) (s : Server.State) (rx : Server.RxEvt)
    (c st : List Nat) (k : Nat)
    (hs : s.cache_data = c ∧ s.store_data = st ∧ s.store_state = k)
    (hc : c.length = 8) (hlen : rx.payload.length = 8) (hne : rx.payload ≠ c) :
    (Server.sl_btmesh_on_event cfg s rx).cache_data = rx.payload
    ∧ (Server.sl_btmesh_on_event cfg s rx).store_data
      = st.set k (Server.fold_data_value rx.payload)
    ∧ (Server.sl_btmesh_on_event cfg s rx).store_state = if k < 7 then k + 1 else 0 := by
  obtain ⟨h1, h2, h3⟩ := hs
  subst h1 h2 h3
  have hd := is_duplicate_of_ne s rx (exists_ne_of_ne _ _ hlen hc hne)
  obtain ⟨hcache, hstore, hcur⟩ := on_event_accept cfg s rx hd hlen
  rw [update_cache_eq _ _ hc hlen] at hcache hstore
  exact ⟨hcache, hstore, hcur⟩

/-- C11: from the initial server state, nine accepted 8-byte payloads `p1`..`p9` (the first
not all zero, each one different from the one before) leave the folded value of `p9` in slot 0,
where the folded value of `p1` stood after the first eight, the folded values of `p2`..`p8` in
slots 1..7, and the cursor at 1. -/
theorem C11_ring_store_wraps (cfg : Config) (p1 p2 p3 p4 p5 p6 p7 p8 p9 : Server.RxEvt)
    (hl1 : p1.payload.length = 8) (hl2 : p2.payload.length = 8) (hl3 : p3.payload.length = 8)
    (hl4 : p4.payload.length = 8) (hl5 : p5.payload.length = 8) (hl6 : p6.payload.length = 8)
    (hl7 : p7.payload.length = 8) (hl8 : p8.payload.length = 8) (hl9 : p9.payload.length = 8)
    (h1 : p1.payload ≠ [0, 0, 0, 0, 0, 0, 0, 0]) (h2 : p2.payload ≠ p1.payload)
    (h3 : p3.payload ≠ p2.payload) (h4 : p4.payload ≠ p3.payload)
    (h5 : p5.payload ≠ p4.payload) (h6 : p6.payload ≠ p5.payload)
    (h7 : p7.payload ≠ p6.payload) (h8 : p8.payload ≠ p7.payload)
    (h9 : p9.payload ≠ p8.payload) :
    ((Server.run cfg Server.init [p1, p2, p3, p4, p5, p6, p7, p8]).store_data
        = [Server.fold_data_value p1.payload, Server.fold_data_value p2.payload,
           Server.fold_data_value p3.payload, Server.fold_data_value p4.payload,
           Server.fold_data_value p5.payload, Server.fold_data_value p6.payload,
           Server.fold_data_value p7.payload, Server.fold_data_value p8.payload]
      ∧ (Server.run cfg Server.init [p1, p2, p3, p4, p5, p6, p7, p8]).store_state = 0)
    ∧ (Server.run cfg Server.init [p1, p2, p3, p4, p5, p6, p7, p8, p9]).store_data
        = [Server.fold_data_value p9.payload, Server.fold_data_value p2.payload,
           Server.fold_data_value p3.payload, Server.fold_data_value p4.payload,
           Server.fold_data_value p5.payload, Server.fold_data_value p6.payload,
           Server.fold_data_value p7.payload, Server.fold_data_value p8.payload]
    ∧ (Server.run cfg Server.init [p1, p2, p3, p4, p5, p6, p7, p8, p9]).store_state = 1 := by
  have a0 : Server.init.cache_data = [0, 0, 0, 0, 0, 0, 0, 0]
      ∧ Server.init.store_data = [0, 0, 0, 0, 0, 0, 0, 0] ∧ Server.init.store_state = 0 :=
    ⟨rfl, rfl, rfl⟩
  have a1 := accept_summary cfg _ p1 _ _ _ a0 rfl hl1 h1
  have a2 := accept_summary cfg _ p2 _ _ _ a1 hl1 hl2 h2
  have a3 := accept_summary cfg _ p3 _ _ _ a2 hl2 hl3 h3
  have a4 := accept_summary cfg _ p4 _ _ _ a3 hl3 hl4 h4
  have a5 := accept_summary cfg _ p5 _ _ _ a4 hl4 hl5 h5
  have a6 := accept_summary cfg _ p6 _ _ _ a5 hl5 hl6 h6
  have a7 := accept_summary cfg _ p7 _ _ _ a6 hl6 hl7 h7
  have a8 := accept_summary cfg _ p8 _ _ _ a7 hl7 hl8 h8
  have a9 := accept_summary cfg _ p9 _ _ _ a8 hl8 hl9 h9
  exact ⟨⟨a8.2.1, a8.2.2⟩, a9.2.1, a9.2.2⟩

/-- Witness of C11: nine payloads that differ in their last byte. -/
theorem C11_ring_store_wraps_witness :
    (Server.run { sensor_status := 1, DATA_LENGTH := 8 } Server.init
      [Server.message 1 [0, 0, 0, 0, 0, 0, 0, 1], Server.message 1 [0, 0, 0, 0, 0, 0, 0, 2],
       Server.message 1 [0, 0, 0, 0, 0, 0, 0, 3], Server.message 1 [0, 0, 0, 0, 0, 0, 0, 4],
       Server.message 1 [0, 0, 0, 0, 0, 0, 0, 5], Server.message 1 [0, 0, 0, 0, 0, 0, 0, 6],
       Server.message 1 [0, 0, 0, 0, 0, 0, 0, 7], Server.message 1 [0, 0, 0, 0, 0, 0, 0, 8],
       Server.message 1 [0, 0, 0, 0, 0, 0, 0, 9]]).store_state = 1 :=
  (C11_ring_store_wraps { sensor_status := 1, DATA_LENGTH := 8 }
    (Server.message 1 [0, 0, 0, 0, 0, 0, 0, 1]) (Server.message 1 [0, 0, 0, 0, 0, 0, 0, 2])
    (Server.message 1 [0, 0, 0, 0, 0, 0, 0, 3]) (Server.message 1 [0, 0, 0, 0, 0, 0, 0, 4])
    (Server.message 1 [0, 0, 0, 0, 0, 0, 0, 5]) (Server.message 1 [0, 0, 0, 0, 0, 0, 0, 6])
    (Server.message 1 [0, 0, 0, 0, 0, 0, 0, 7]) (Server.message 1 [0, 0, 0, 0, 0, 0, 0, 8])
    (Server.message 1 [0, 0, 0, 0, 0, 0, 0, 9])
    rfl rfl rfl rfl rfl rfl rfl rfl rfl
    (by decide) (by decide) (by decide) (by decide) (by decide) (by decide) (by decide)
    (by decide) (by decide)).2.2

theorem on_event_store (cfg : Config) (s : Server.State) (rx : Server.RxEvt)
    (h : Server.is_duplicate s rx = false) :
    (Server.sl_btmesh_on_event cfg s rx).cache_data
      = (if rx.payload.length = 8 then Server.update_cache s.cache_data rx.payload
         else s.cache_data)
    ∧ (Server.sl_btmesh_on_event cfg s rx).store_data
      = s.store_data.set s.store_state
          (Server.fold_data_value
            (if rx.payload.length = 8 then Server.update_cache s.cache_data rx.payload
             else s.cache_data))
    ∧ (Server.sl_btmesh_on_event cfg s rx).store_state
      = if s.store_state < 7 then s.store_state + 1 else 0 := by
  unfold Server.sl_btmesh_on_event
  rw [if_neg (by simp [h])]
  simp only [decode_opcode_fields, Server.emit]
  by_cases hl : rx.payload.length = 8
  · simp only [hl, if_true]
    refine ⟨?_, ?_, ?_⟩ <;> split <;> rfl
  · simp only [hl, if_false]
    refine ⟨?_, ?_, ?_⟩ <;> split <;> rfl

theorem decode_opcode_effects (cfg : Config) (s : Server.State) (rx : Server.RxEvt) :
    (Server.decode_opcode cfg s rx).effects
      = s.effects ++ (Server.decode_opcode cfg { s with effects := [] } rx).effects := by
  unfold Server.decode_opcode
  split
  · dsimp only
    split <;> simp [Server.emit]
  · simp

theorem on_event_effects (cfg : Config) (s : Server.State) (rx : Server.RxEvt)
    (hd : Server.is_duplicate s rx = false) :
    ∃ tail, (Server.sl_btmesh_on_event cfg s rx).effects
        = s.effects ++ [Effect.app_log "New data stored." [],
            Effect.app_log "Vendor model data received."
              [rx.elem_index, rx.vendor_id, rx.model_id, rx.source_address,
               rx.destination_address, rx.va_index, rx.appkey_index, rx.nonrelayed, rx.opcode,
               rx.final],
            Effect.app_log "Payload: %x " (rx.payload.map Int.ofNat)] ++ tail := by
  unfold Server.sl_btmesh_on_event
  rw [if_neg (by simp [hd])]
  dsimp only
  rw [decode_opcode_effects]
  by_cases hl : rx.payload.length = 8 <;> by_cases hk : s.store_state < 7 <;>
    simp [hl, hk, Server.emit]

/-- C12: whatever the cache holds, an inbound payload whose length is not 8 (empty, shorter or
longer, even when its first 8 bytes equal the cache) is never classified as a duplicate:
`is_duplicate` is false and the handler does not drop the message but goes on to the store
step, the logs of the received message and the opcode switch. -/
theorem C12_malformed_never_duplicate (cfg : Config) (s : Server.State) (rx : Server.RxEvt)
    (hlen : rx.payload.length ≠ 8) :
    Server.is_duplicate s rx = false
    ∧ Server.sl_btmesh_on_event cfg s rx
      ≠ Server.emit s (.app_log "Duplicate payload detected, skipping processing." [])
    ∧ ∃ tail, (Server.sl_btmesh_on_event cfg s rx).effects
        = s.effects ++ [Effect.app_log "New data stored." [],
            Effect.app_log "Vendor model data received."
              [rx.elem_index, rx.vendor_id, rx.model_id, rx.source_address,
               rx.destination_address, rx.va_index, rx.appkey_index, rx.nonrelayed, rx.opcode,
               rx.final],
            Effect.app_log "Payload: %x " (rx.payload.map Int.ofNat)] ++ tail := by
  have hd : Server.is_duplicate s rx = false := by
    unfold Server.is_duplicate
    rw [if_neg hlen]
  have heff := on_event_effects cfg s rx hd
  refine ⟨hd, ?_, heff⟩
  intro hcon
  obtain ⟨tail, ht⟩ := heff
  rw [hcon] at ht
  simp [Server.emit] at ht

/-- Witness of C12: a 9-byte payload whose first 8 bytes equal the cache. -/
theorem C12_malformed_never_duplicate_witness :
    Server.is_duplicate { Server.init with cache_data := [1, 2, 3, 4, 5, 6, 7, 8] }
      (Server.message 1 [1, 2, 3, 4, 5, 6, 7, 8, 9]) = false :=
  (C12_malformed_never_duplicate { sensor_status := 1, DATA_LENGTH := 8 }
    { Server.init with cache_data := [1, 2, 3, 4, 5, 6, 7, 8] }
    (Server.message 1 [1, 2, 3, 4, 5, 6, 7, 8, 9]) (by decide)).1

/-- C13, the code at a failing input: after the payload 1..8 has been accepted from the initial
state, a message with the 1-byte payload `0xAA` leaves the cache unchanged but writes the
folded value of the cache into slot 1 of the ring store and moves the cursor from 1 to 2. -/
theorem C13_malformed_payload_is_stored :
    (Server.run { sensor_status := 1, DATA_LENGTH := 8 } Server.init
        [Server.message 1 [1, 2, 3, 4, 5, 6, 7, 8]]).store_data
      = [0x0102030405060708, 0, 0, 0, 0, 0, 0, 0]
    ∧ (Server.run { sensor_status := 1, DATA_LENGTH := 8 } Server.init
        [Server.message 1 [1, 2, 3, 4, 5, 6, 7, 8]]).store_state = 1
    ∧ (Server.run { sensor_status := 1, DATA_LENGTH := 8 } Server.init
        [Server.message 1 [1, 2, 3, 4, 5, 6, 7, 8], Server.message 1 [0xAA]]).cache_data
      = [1, 2, 3, 4, 5, 6, 7, 8]
    ∧ (Server.run { sensor_status := 1, DATA_LENGTH := 8 } Server.init
        [Server.message 1 [1, 2, 3, 4, 5, 6, 7, 8], Server.message 1 [0xAA]]).store_data
      = [0x0102030405060708, 0x0102030405060708, 0, 0, 0, 0, 0, 0]
    ∧ (Server.run { sensor_status := 1, DATA_LENGTH := 8 } Server.init
        [Server.message 1 [1, 2, 3, 4, 5, 6, 7, 8], Server.message 1 [0xAA]]).store_state
      = 2 := by
  decide

theorem on_event_store_state (cfg : Config) (s : Server.State) (rx : Server.RxEvt)
    (h : s.store_state < 8) : (Server.sl_btmesh_on_event cfg s rx).store_state < 8 := by
  cases hd : Server.is_duplicate s rx with
  | true =>
    rw [on_event_duplicate cfg s rx hd]
    exact h
  | false =>
    rw [(on_event_store cfg s rx hd).2.2]
    split <;> omega

theorem run_store_state (cfg : Config) (rxs : List Server.RxEvt) :
    ∀ s : Server.State, s.store_state < 8 → (Server.run cfg s rxs).store_state < 8 := by
  induction rxs with
  | nil =>
    intro s h
    exact h
  | cons rx rest ih =>
    intro s h
    exact ih _ (on_event_store_state cfg s rx h)

/-- C18: in every server state reached from the initial state by any sequence of inbound
messages (any opcode, any payload length and content) the cursor `store_state` lies in [0,8),
so the write `store_data[store_state]` is in bounds; the ring store keeps its 8 slots. -/
theorem C18_cursor_in_range (cfg : Config) (rxs : List Server.RxEvt) :
    (Server.run cfg Server.init rxs).store_state < 8
    ∧ (Server.run cfg Server.init rxs).store_state
      < (Server.run cfg Server.init rxs).store_data.length := by
  have hk := run_store_state cfg rxs Server.init (by decide)
  have hlen : ∀ (l : List Server.RxEvt) (s : Server.State), s.store_data.length = 8 →
      (Server.run cfg s l).store_data.length = 8 := by
    intro l
    induction l with
    | nil =>
      intro s h
      exact h
    | cons rx rest ih =>
      intro s h
      apply ih
      cases hd : Server.is_duplicate s rx with
      | true =>
        rw [on_event_duplicate cfg s rx hd]
        exact h
      | false =>
        rw [(on_event_store cfg s rx hd).2.1, List.length_set]
        exact h
  refine ⟨hk, ?_⟩
  rw [hlen rxs Server.init rfl]
  exact hk

/-! ### Totality of the timing codec -/

set_option maxRecDepth 100000 in
theorem parse_period_cases : ∀ b < 256,
    (b &&& STEP_RES_BIT_MASK = STEP_RES_100_MILLI ∨ b &&& STEP_RES_BIT_MASK = STEP_RES_1_SEC
      ∨ b &&& STEP_RES_BIT_MASK = STEP_RES_10_SEC ∨ b &&& STEP_RES_BIT_MASK = STEP_RES_10_MIN)
    ∧ b &&& bnot32 STEP_RES_BIT_MASK = b % 64
    ∧ parse_period b
      = (if b / 64 = 0 then 100 else if b / 64 = 1 then 1000
          else if b / 64 = 2 then 10000 else 600000) * (b % 64) := by
  decide

/-- C20: `parse_period` has no error path. For every argument, whose low 8 bits are the
`uint8_t` value `b`, the switch selector `b & 0xC0` is one of the four case labels, so the
default branch is never taken; the stored value is the exact product of the unit (100, 1000,
10000 or 600000) and the count `b mod 64`, at most 600000 * 63 = 37800000, so the
multiplication stays inside the range of `int` and of `uint32_t` and nothing wraps. -/
theorem C20_parse_period_total (interval : Nat) :
    (interval % 2 ^ 8 &&& STEP_RES_BIT_MASK = STEP_RES_100_MILLI
      ∨ interval % 2 ^ 8 &&& STEP_RES_BIT_MASK = STEP_RES_1_SEC
      ∨ interval % 2 ^ 8 &&& STEP_RES_BIT_MASK = STEP_RES_10_SEC
      ∨ interval % 2 ^ 8 &&& STEP_RES_BIT_MASK = STEP_RES_10_MIN)
    ∧ parse_period interval
      = (if interval % 2 ^ 8 / 64 = 0 then 100 else if interval % 2 ^ 8 / 64 = 1 then 1000
          else if interval % 2 ^ 8 / 64 = 2 then 10000 else 600000) * (interval % 2 ^ 8 % 64)
    ∧ 600000 * (interval % 2 ^ 8 &&& bnot32 STEP_RES_BIT_MASK) ≤ 600000 * 63
    ∧ parse_period interval ≤ 37800000
    ∧ 37800000 < 2 ^ 31 := by
  have hb : interval % 2 ^ 8 < 256 := Nat.mod_lt _ (by norm_num)
  obtain ⟨h1, h2, h3⟩ := parse_period_cases _ hb
  have hpm : parse_period interval = parse_period (interval % 2 ^ 8) := by
    unfold parse_period
    simp only [Nat.mod_mod]
  have h64 : interval % 2 ^ 8 % 64 < 64 := Nat.mod_lt _ (by norm_num)
  have hval : parse_period interval ≤ 37800000 := by
    rw [hpm, h3]
    split
    · omega
    · split
      · omega
      · split <;> omega
  refine ⟨h1, ?_, ?_, hval, by norm_num⟩
  · rw [hpm, h3]
  · rw [h2]
    omega

/-! ### Selection mode owns the buttons -/

theorem quiet_of_effects_eq (s t : Client.State) (h : t.effects = s.effects) :
    Client.quiet s t :=
  ⟨[], by simp [h], by simp⟩

theorem quiet_trans (s t u : Client.State) (h1 : Client.quiet s t) (h2 : Client.quiet t u) :
    Client.quiet s u := by
  obtain ⟨es1, he1, hd1⟩ := h1
  obtain ⟨es2, he2, hd2⟩ := h2
  refine ⟨es1 ++ es2, by rw [he2, he1, List.append_assoc], ?_⟩
  intro e he
  rcases List.mem_append.1 he with h | h
  · exact hd1 e h
  · exact hd2 e h

theorem quiet_emit (s t : Client.State) (e : Effect) (h : Client.quiet s t)
    (he : e.is_display = true) : Client.quiet s (Client.emit t e) := by
  apply quiet_trans s t _ h
  refine ⟨[e], rfl, ?_⟩
  intro x hx
  rw [List.mem_singleton.1 hx]
  exact he

theorem quiet_choose_period (s t : Client.State) (c : Nat) (h : Client.quiet s t) :
    Client.quiet s (Client.choose_period t c) := by
  unfold Client.choose_period
  exact quiet_emit _ _ _ (quiet_emit _ _ _ (quiet_emit _ _ _ h rfl) rfl) rfl

theorem quiet_print_update_time (s t : Client.State) (c : Nat) (h : Client.quiet s t) :
    Client.quiet s (Client.print_update_time t c) := by
  unfold Client.print_update_time
  split <;> exact quiet_emit _ _ _ h rfl

theorem quiet_setup_periodcal_update (s t : Client.State) (interval : Nat)
    (h : Client.quiet s t) : Client.quiet s (Client.setup_periodcal_update t interval) := by
  unfold Client.setup_periodcal_update
  dsimp only
  split
  · exact quiet_trans _ _ _ h (quiet_of_effects_eq _ _ rfl)
  · exact quiet_emit _ _ _ (quiet_trans _ _ _ h (quiet_of_effects_eq _ _ rfl)) rfl

theorem quiet_select_period_update_cb (s : Client.State) (button duration : Nat) :
    Client.quiet s (Client.app_button_press_select_period_update_cb s button duration) := by
  unfold Client.app_button_press_select_period_update_cb
  split
  · apply quiet_choose_period
    split
    · split <;> exact quiet_of_effects_eq _ _ rfl
    · split <;> exact quiet_of_effects_eq _ _ rfl
  · split
    · split
      · dsimp only
        refine quiet_emit _ _ _ (quiet_emit _ _ _ (quiet_emit _ _ _
          (quiet_setup_periodcal_update _ _ _ (quiet_print_update_time _ _ _
            (quiet_emit _ _ _ (quiet_emit _ _ _ (quiet_of_effects_eq _ _ rfl) rfl) rfl)))
          rfl) rfl) rfl
      · exact quiet_of_effects_eq _ _ rfl
    · exact quiet_of_effects_eq _ _ rfl

/-- C14: while the selector is in Selecting mode, for every button id and every duration
class, `app_button_press_cb` does exactly what the selection handler does, and every platform
call it makes is output to the display or the log: no external signal is raised (neither
`EX_B0_PRESS`, which triggers the publish-once, nor `EX_B1_PRESS`, nor a long-press signal)
and no publication is requested. -/
theorem C14_selecting_owns_buttons (s : Client.State) (button duration : Nat)
    (hm : s.select_update_mode = true) :
    Client.app_button_press_cb s button duration
      = Client.app_button_press_select_period_update_cb s button duration
    ∧ ∃ es : List Effect,
        (Client.app_button_press_cb s button duration).effects = s.effects ++ es
        ∧ (∀ e ∈ es, e.is_display = true)
        ∧ (∀ signals, Effect.external_signal signals ∉ es)
        ∧ Effect.publish ∉ es
        ∧ (∀ opcode length data, Effect.set_publication opcode length data ∉ es) := by
  have heq : Client.app_button_press_cb s button duration
      = Client.app_button_press_select_period_update_cb s button duration := by
    unfold Client.app_button_press_cb
    rw [if_pos hm]
  refine ⟨heq, ?_⟩
  rw [heq]
  obtain ⟨es, he, hd⟩ := quiet_select_period_update_cb s button duration
  refine ⟨es, he, hd, ?_, ?_, ?_⟩
  · intro signals hmem
    exact absurd (hd _ hmem) (by simp [Effect.is_display])
  · intro hmem
    exact absurd (hd _ hmem) (by simp [Effect.is_display])
  · intro opcode length data hmem
    exact absurd (hd _ hmem) (by simp [Effect.is_display])

/-- Witness of C14: a short press of button 0 at index 2 in Selecting mode. -/
theorem C14_selecting_owns_buttons_witness :
    Client.app_button_press_cb { Client.init with select_update_mode := true, period_idx := 2 }
        Client.BUTTON_PRESS_BUTTON_0 APP_BUTTON_PRESS_DURATION_SHORT
      = Client.app_button_press_select_period_update_cb
        { Client.init with select_update_mode := true, period_idx := 2 }
        Client.BUTTON_PRESS_BUTTON_0 APP_BUTTON_PRESS_DURATION_SHORT :=
  (C14_selecting_owns_buttons { Client.init with select_update_mode := true, period_idx := 2 }
    Client.BUTTON_PRESS_BUTTON_0 APP_BUTTON_PRESS_DURATION_SHORT rfl).1

/-- C16: in Selecting mode every button event other than a short press and a long press of
button 0 changes nothing at all, so mode, index and periodic timer are unchanged: this covers
a long press of button 1 and every medium or very-long press of either button. -/
theorem C16_other_presses_ignored (s : Client.State) (button duration : Nat)
    (hm : s.select_update_mode = true)
    (hd : duration ≠ APP_BUTTON_PRESS_DURATION_SHORT)
    (hb : duration = APP_BUTTON_PRESS_DURATION_LONG → button ≠ Client.BUTTON_PRESS_BUTTON_0) :
    Client.app_button_press_cb s button duration = s
    ∧ (Client.app_button_press_cb s button duration).select_update_mode = true
    ∧ (Client.app_button_press_cb s button duration).period_idx = s.period_idx
    ∧ (Client.app_button_press_cb s button duration).periodic_update_timer
      = s.periodic_update_timer := by
  have h : Client.app_button_press_cb s button duration = s := by
    unfold Client.app_button_press_cb
    rw [if_pos hm]
    unfold Client.app_button_press_select_period_update_cb
    rw [if_neg hd]
    split
    · next hl => rw [if_neg (hb hl)]
    · rfl
  rw [h]
  exact ⟨rfl, hm, rfl, rfl⟩

/-- Witness of C16: a long press of button 1 at index 3 while a 1-second timer runs. -/
theorem C16_other_presses_ignored_witness :
    Client.app_button_press_cb
        { Client.init with
          select_update_mode := true
          period_idx := 3
          periodic_update_timer := { running := true, timeout_ms := 1000, is_periodic := true } }
        Client.BUTTON_PRESS_BUTTON_1 APP_BUTTON_PRESS_DURATION_LONG
      = { Client.init with
          select_update_mode := true
          period_idx := 3
          periodic_update_timer := { running := true, timeout_ms := 1000, is_periodic := true } } :=
  (C16_other_presses_ignored
    { Client.init with
      select_update_mode := true
      period_idx := 3
      periodic_update_timer := { running := true, timeout_ms := 1000, is_periodic := true } }
    Client.BUTTON_PRESS_BUTTON_1 APP_BUTTON_PRESS_DURATION_LONG rfl (by decide)
    (fun _ => by decide)).1

/-! ### Sensor failure -/

/-- C15: when the sensor read reports failure, `read_sensor_data` clears the humidity and
temperature buffers and produces a payload of 8 zero bytes, whatever the three buffers held
before; when it succeeds, the buffers hold the bytes of the two results and the payload is the
four humidity bytes followed by the four temperature bytes, in the same order. -/
theorem C15_read_sensor_data_payload (s : Client.State) (r : Client.RhtRead)
    (hs : s.sensor_data.length = 8) :
    (r.status ≠ SL_STATUS_OK →
      (Client.read_sensor_data s r).humidity = [0, 0, 0, 0]
      ∧ (Client.read_sensor_data s r).temperature = [0, 0, 0, 0]
      ∧ (Client.read_sensor_data s r).sensor_data = [0, 0, 0, 0, 0, 0, 0, 0])
    ∧ (r.status = SL_STATUS_OK →
      (Client.read_sensor_data s r).humidity = le_bytes32 (r.rh % 2 ^ 32)
      ∧ (Client.read_sensor_data s r).temperature = le_bytes32 (int32Bits r.t))
    ∧ (Client.read_sensor_data s r).sensor_data
      = (Client.read_sensor_data s r).humidity ++ (Client.read_sensor_data s r).temperature
    ∧ (∀ i < 4,
        (Client.read_sensor_data s r).sensor_data.getD i 0
          = (Client.read_sensor_data s r).humidity.getD i 0
        ∧ (Client.read_sensor_data s r).sensor_data.getD (i + 4) 0
          = (Client.read_sensor_data s r).temperature.getD i 0) := by
  have hfail : r.status ≠ SL_STATUS_OK →
      (Client.read_sensor_data s r).humidity = [0, 0, 0, 0]
      ∧ (Client.read_sensor_data s r).temperature = [0, 0, 0, 0]
      ∧ (Client.read_sensor_data s r).sensor_data = [0, 0, 0, 0, 0, 0, 0, 0] := by
    intro h
    simp only [Client.read_sensor_data, h, ne_eq, not_false_eq_true, if_true, Client.emit,
      List.replicate]
    exact ⟨trivial, trivial, pack_sensor_data_eq 0 0 0 0 0 0 0 0 _ hs⟩
  have hok : r.status = SL_STATUS_OK →
      (Client.read_sensor_data s r).humidity = le_bytes32 (r.rh % 2 ^ 32)
      ∧ (Client.read_sensor_data s r).temperature = le_bytes32 (int32Bits r.t)
      ∧ (Client.read_sensor_data s r).sensor_data
        = le_bytes32 (r.rh % 2 ^ 32) ++ le_bytes32 (int32Bits r.t) := by
    intro h
    simp only [Client.read_sensor_data, h, ne_eq, not_true_eq_false, if_false, le_bytes32]
    exact ⟨trivial, trivial, pack_sensor_data_eq _ _ _ _ _ _ _ _ _ hs⟩
  have happ : (Client.read_sensor_data s r).sensor_data
      = (Client.read_sensor_data s r).humidity ++ (Client.read_sensor_data s r).temperature := by
    by_cases h : r.status = SL_STATUS_OK
    · obtain ⟨h1, h2, h3⟩ := hok h
      rw [h1, h2, h3]
    · obtain ⟨h1, h2, h3⟩ := hfail h
      rw [h1, h2, h3]
      rfl
  refine ⟨hfail, fun h => ⟨(hok h).1, (hok h).2.1⟩, happ, ?_⟩
  intro i hi
  rw [happ]
  by_cases h : r.status = SL_STATUS_OK
  · obtain ⟨h1, h2, _⟩ := hok h
    rw [h1, h2]
    simp only [le_bytes32]
    have : i = 0 ∨ i = 1 ∨ i = 2 ∨ i = 3 := by omega
    rcases this with rfl | rfl | rfl | rfl <;> exact ⟨rfl, rfl⟩
  · obtain ⟨h1, h2, _⟩ := hfail h
    rw [h1, h2]
    have : i = 0 ∨ i = 1 ∨ i = 2 ∨ i = 3 := by omega
    rcases this with rfl | rfl | rfl | rfl <;> exact ⟨rfl, rfl⟩

/-- Witness of C15: a failed read while all three buffers hold non-zero bytes. -/
theorem C15_read_sensor_data_payload_witness :
    (Client.read_sensor_data
        { Client.init with
          temperature := [1, 2, 3, 4]
          humidity := [5, 6, 7, 8]
          sensor_data := [9, 9, 9, 9, 9, 9, 9, 9] }
        { status := 1, rh := 45123, t := 21500 }).sensor_data = [0, 0, 0, 0, 0, 0, 0, 0] :=
  ((C15_read_sensor_data_payload
    { Client.init with
      temperature := [1, 2, 3, 4]
      humidity := [5, 6, 7, 8]
      sensor_data := [9, 9, 9, 9, 9, 9, 9, 9] }
    { status := 1, rh := 45123, t := 21500 } rfl).1 (by decide)).2.2

/-! ### Selector index invariant -/

theorem publish_sensor_data_period_idx (cfg : Config) (s : Client.State)
    (sc_set sc_publish : Nat) :
    (Client.publish_sensor_data cfg s sc_set sc_publish).period_idx = s.period_idx := by
  unfold Client.publish_sensor_data
  dsimp only
  split
  · rfl
  · split <;> rfl

theorem sl_bt_on_event_period_idx (cfg : Config) (s : Client.State) (extsignals : Nat)
    (env : Client.SignalEnv) (h : s.period_idx < 5) :
    (Client.sl_bt_on_event cfg s extsignals env).period_idx < 5 := by
  by_cases hsig : extsignals % 2 ^ 32 &&& Client.EX_B1_PRESS ≠ 0
  · rw [(trigger_fields cfg s extsignals env hsig).2]
    omega
  · unfold Client.sl_bt_on_event
    dsimp only
    rw [if_neg hsig]
    split
    · rw [publish_sensor_data_period_idx]
      simp only [Client.emit, (read_sensor_data_fields s env.rht_b0).2.1]
      exact h
    · exact h

theorem select_period_update_cb_period_idx (s : Client.State) (button duration : Nat)
    (h : s.period_idx < 5) :
    (Client.app_button_press_select_period_update_cb s button duration).period_idx < 5 := by
  unfold Client.app_button_press_select_period_update_cb
  split
  · rw [(choose_period_fields _ _).2.1]
    simp only [periods_length]
    split
    · split
      · show (s.period_idx + 1) % 2 ^ 8 < 5
        omega
      · show 0 < 5
        omega
    · split
      · show s.period_idx - 1 < 5
        omega
      · show (5 - 1) % 2 ^ 8 < 5
        omega
  · split
    · split
      · simp only [Client.emit, (setup_periodcal_update_fields _ _).2.1,
          (print_update_time_fields _ _).2.1]
        exact h
      · exact h
    · exact h

theorem app_button_press_cb_period_idx (s : Client.State) (button duration : Nat)
    (h : s.period_idx < 5) : (Client.app_button_press_cb s button duration).period_idx < 5 := by
  unfold Client.app_button_press_cb
  split
  · exact select_period_update_cb_period_idx s button duration h
  · split
    · split <;> exact h
    · split
      · split <;> exact h
      · exact h

theorem step_period_idx (cfg : Config) (s : Client.State) (ev : Client.Event)
    (h : s.period_idx < 5) : (Client.step cfg s ev).period_idx < 5 := by
  cases ev with
  | external_signal extsignals env => exact sl_bt_on_event_period_idx cfg s extsignals env h
  | button_press button duration => exact app_button_press_cb_period_idx s _ _ h
  | timer_tick rht sc_set sc_publish =>
    show (Client.periodic_update_timer_cb cfg s rht sc_set sc_publish).period_idx < 5
    unfold Client.periodic_update_timer_cb
    dsimp only
    rw [publish_sensor_data_period_idx, (read_sensor_data_fields _ _).2.1]
    exact h

/-- C17: in every client state reached from the initial state (Idle, index 0) by any sequence
of external-signal events, button events (any button id, any duration) and timer expiries,
`period_idx` lies in [0,5), below the number of entries of `periods`, so the read
`periods[period_idx]` at commit is in bounds. -/
theorem C17_period_idx_in_range (cfg : Config) (evs : List Client.Event) :
    (Client.run cfg Client.init evs).period_idx < 5
    ∧ (Client.run cfg Client.init evs).period_idx < periods.length := by
  have hrun : ∀ (l : List Client.Event) (s : Client.State), s.period_idx < 5 →
      (Client.run cfg s l).period_idx < 5 := by
    intro l
    induction l with
    | nil =>
      intro s h
      exact h
    | cons ev rest ih =>
      intro s h
      exact ih _ (step_period_idx cfg s ev h)
  have h := hrun evs Client.init (by decide)
  exact ⟨h, by rw [periods_length]; exact h⟩

/-! ### Order of division and conversion -/

theorem fahrenheit_of_quotient (t1 t2 : Int) (h : Int.tdiv t1 1000 = Int.tdiv t2 1000) :
    Server.fahrenheit t1 = Server.fahrenheit t2 := by
  unfold Server.fahrenheit Server.fahrenheit_float
  rw [h]

theorem tdiv_of_nonneg (a b : Int) (ha : 0 ≤ a) (hb : 0 ≤ b) : Int.tdiv a b = a / b :=
  Int.tdiv_eq_ediv ha hb

theorem tdiv_of_neg (a b : Int) (ha : a < 0) (hb : 0 ≤ b) : Int.tdiv a b = -((-a) / b) := by
  have h : Int.tdiv a b = -(Int.tdiv (-a) b) := by
    rw [Int.neg_tdiv, Int.neg_neg]
  rw [h, Int.tdiv_eq_ediv (by omega) hb]

/-- The rounded quotient at a known value: `1.0f / 1000.0f` is the `float` `0x3A83126F`. -/
theorem div_one_by_thousand :
    Dyadic.div 24 (Dyadic.ofInt 1) (Dyadic.ofInt 1000) = { m := 8589935, e := -33 } := by
  decide

/-! #### Error bounds of the conversion over a range of quotients -/

/-- Zero has no binary digits. -/
theorem bit_length_zero (fuel : Nat) : Dyadic.bit_length fuel 0 = 0 := by
  cases fuel <;> simp [Dyadic.bit_length]

/-- A number between `2^b` and `2^(b+1)` has `b + 1` binary digits, whenever the fuel is
enough. -/
theorem bit_length_of_bounds : ∀ (fuel n b : Nat), n ≤ fuel → 2 ^ b ≤ n → n < 2 ^ (b + 1) →
    Dyadic.bit_length fuel n = b + 1 := by
  intro fuel
  induction fuel with
  | zero =>
    intro n b hn h1 _
    have : 0 < 2 ^ b := Nat.two_pow_pos b
    omega
  | succ fuel ih =>
    intro n b hn h1 h2
    have hpos : 0 < 2 ^ b := Nat.two_pow_pos b
    unfold Dyadic.bit_length
    rw [if_neg (by omega)]
    cases b with
    | zero =>
      have h1n : n = 1 := by
        simp at h1 h2
        omega
      subst h1n
      simp [bit_length_zero]
    | succ k =>
      have e1 : 2 ^ (k + 1) = 2 * 2 ^ k := by rw [Nat.pow_succ]; omega
      have e2 : 2 ^ (k + 1 + 1) = 2 * (2 * 2 ^ k) := by rw [Nat.pow_succ, e1]; omega
      rw [ih (n / 2) k (by omega) (by omega) (by rw [e1]; omega)]


/-- The value of `ofInt n` is `n`. -/
theorem val_ofInt (n : Int) : (Dyadic.ofInt n).val = (n : ℚ) := by
  simp [Dyadic.val, Dyadic.ofInt]

/-- The product is exact. -/
theorem val_mul (a b : Dyadic) : (Dyadic.mul a b).val = a.val * b.val := by
  simp only [Dyadic.val, Dyadic.mul]
  rw [zpow_add₀ (by norm_num : (2 : ℚ) ≠ 0)]
  push_cast
  ring

/-- The sum is exact. -/
theorem val_add (a b : Dyadic) : (Dyadic.add a b).val = a.val + b.val := by
  simp only [Dyadic.val, Dyadic.add]
  have h2 : (2 : ℚ) ≠ 0 := by norm_num
  have ha : ((2 : ℚ) ^ (a.e - min a.e b.e).toNat) = (2 : ℚ) ^ (a.e - min a.e b.e) := by
    rw [← zpow_natCast, Int.toNat_of_nonneg (by have := min_le_left a.e b.e; omega)]
  have hb : ((2 : ℚ) ^ (b.e - min a.e b.e).toNat) = (2 : ℚ) ^ (b.e - min a.e b.e) := by
    rw [← zpow_natCast, Int.toNat_of_nonneg (by have := min_le_right a.e b.e; omega)]
  push_cast
  rw [ha, hb, add_mul, mul_assoc, mul_assoc, ← zpow_add₀ h2, ← zpow_add₀ h2]
  simp

/-- A positive `n` has `bit_length n n` binary digits: it lies between `2^(bits - 1)` and
`2^bits`. -/
theorem bit_length_spec (n : Nat) (hn : 0 < n) :
    1 ≤ Dyadic.bit_length n n ∧ 2 ^ (Dyadic.bit_length n n - 1) ≤ n
      ∧ n < 2 ^ Dyadic.bit_length n n := by
  have h1 : 2 ^ Nat.log 2 n ≤ n := Nat.pow_log_le_self 2 (by omega)
  have h2 : n < 2 ^ (Nat.log 2 n + 1) := Nat.lt_pow_succ_log_self (by norm_num) n
  rw [bit_length_of_bounds n n (Nat.log 2 n) (Nat.le_refl n) h1 h2]
  exact ⟨by omega, by simpa using h1, h2⟩

/-- A number below `2^p` has at most `p` binary digits. -/
theorem bit_length_le (n p : Nat) (h : n < 2 ^ p) : Dyadic.bit_length n n ≤ p := by
  rcases Nat.eq_zero_or_pos n with h0 | h0
  · subst h0
    rw [bit_length_zero]
    omega
  · obtain ⟨h1, h2, _⟩ := bit_length_spec n h0
    by_contra hcon
    have hle : 2 ^ p ≤ 2 ^ (Dyadic.bit_length n n - 1) :=
      Nat.pow_le_pow_right (by norm_num) (by omega)
    omega

/-- A significand of at most `p` bits is left as it is by rounding to `p` bits. -/
theorem round_exact (p : Nat) (a : Dyadic) (h : a.m.natAbs < 2 ^ p) : Dyadic.round p a = a := by
  unfold Dyadic.round
  simp only
  rw [if_pos (bit_length_le _ _ h)]

/-- The rounded quotient times `2^sh` lies within half of `2^sh` of the number rounded. -/
theorem round_nearest (n sh : Nat) (hsh : 1 ≤ sh) :
    (if 2 ^ (sh - 1) < n % 2 ^ sh ∨ (n % 2 ^ sh = 2 ^ (sh - 1) ∧ n / 2 ^ sh % 2 = 1)
        then n / 2 ^ sh + 1 else n / 2 ^ sh) * 2 ^ sh ≤ n + 2 ^ (sh - 1)
    ∧ n ≤ (if 2 ^ (sh - 1) < n % 2 ^ sh ∨ (n % 2 ^ sh = 2 ^ (sh - 1) ∧ n / 2 ^ sh % 2 = 1)
        then n / 2 ^ sh + 1 else n / 2 ^ sh) * 2 ^ sh + 2 ^ (sh - 1) := by
  have hD : 2 ^ sh = 2 * 2 ^ (sh - 1) := by
    obtain ⟨k, rfl⟩ : ∃ k, sh = k + 1 := ⟨sh - 1, by omega⟩
    simp [Nat.pow_succ]
    omega
  have hdm := Nat.div_add_mod n (2 ^ sh)
  have hr : n % 2 ^ sh < 2 ^ sh := Nat.mod_lt _ (Nat.two_pow_pos sh)
  have hcomm : 2 ^ sh * (n / 2 ^ sh) = n / 2 ^ sh * 2 ^ sh := Nat.mul_comm _ _
  split
  · next hc =>
    rw [Nat.add_mul, Nat.one_mul]
    generalize n / 2 ^ sh * 2 ^ sh = w at *
    generalize n % 2 ^ sh = r at *
    generalize 2 ^ (sh - 1) = half at *
    generalize 2 ^ sh = D at *
    constructor <;> omega
  · next hc =>
    generalize n / 2 ^ sh * 2 ^ sh = w at *
    generalize n % 2 ^ sh = r at *
    generalize 2 ^ (sh - 1) = half at *
    generalize 2 ^ sh = D at *
    constructor <;> omega

/-- Rounding a value below `2^K` in magnitude to `p` significant bits moves it by at most
`2^(K - p - 1)`, half a unit in the last place. -/
theorem round_err (p K : Nat) (a : Dyadic) (h : |a.val| < 2 ^ K) :
    |(Dyadic.round p a).val - a.val| * 2 ^ (p + 1) ≤ 2 ^ K := by
  unfold Dyadic.round
  simp only
  have habs : |(a.m : ℚ)| = (a.m.natAbs : ℚ) := by
    rw [Nat.cast_natAbs, Int.cast_abs]
  generalize a.m.natAbs = n at *
  split
  · rw [sub_self, abs_zero, zero_mul]
    positivity
  · next hb =>
    have hn : 0 < n := by
      rcases Nat.eq_zero_or_pos n with h0 | h0
      · rw [h0, bit_length_zero] at hb
        omega
      · exact h0
    obtain ⟨hB1, hB2, hB3⟩ := bit_length_spec _ hn
    generalize Dyadic.bit_length n n = B at *
    have hsh : 1 ≤ B - p := by omega
    obtain ⟨hr1, hr2⟩ := round_nearest n (B - p) hsh
    generalize (if 2 ^ (B - p - 1) < n % 2 ^ (B - p)
        ∨ (n % 2 ^ (B - p) = 2 ^ (B - p - 1) ∧ n / 2 ^ (B - p) % 2 = 1)
      then n / 2 ^ (B - p) + 1 else n / 2 ^ (B - p)) = q1 at *
    have h2 : (2 : ℚ) ≠ 0 := by norm_num
    have hpos : (0 : ℚ) < 2 ^ a.e := by positivity
    have hm : (a.m : ℚ) = (if a.m < 0 then -1 else 1) * (n : ℚ) := by
      rw [← habs]
      split
      · next hneg =>
        have hlt : (a.m : ℚ) < 0 := by exact_mod_cast hneg
        rw [abs_of_neg hlt]
        ring
      · next hneg =>
        have hge : (0 : ℚ) ≤ (a.m : ℚ) := by exact_mod_cast (not_lt.mp hneg)
        rw [abs_of_nonneg hge]
        ring
    have hval : Dyadic.val ⟨(if a.m < 0 then -1 else 1) * (q1 : Int),
          a.e + ((B - p : Nat) : Int)⟩ - a.val
        = (if a.m < 0 then -1 else 1) * ((q1 : ℚ) * 2 ^ (B - p) - (n : ℚ)) * 2 ^ a.e := by
      simp only [Dyadic.val]
      rw [zpow_add₀ h2, zpow_natCast, hm]
      split <;> push_cast <;> ring
    have hd : |(q1 : ℚ) * 2 ^ (B - p) - (n : ℚ)| ≤ 2 ^ (B - p - 1) := by
      have c1 : ((q1 * 2 ^ (B - p) : Nat) : ℚ) ≤ ((n + 2 ^ (B - p - 1) : Nat) : ℚ) :=
        Nat.cast_le.mpr hr1
      have c2 : ((n : Nat) : ℚ) ≤ ((q1 * 2 ^ (B - p) + 2 ^ (B - p - 1) : Nat) : ℚ) :=
        Nat.cast_le.mpr hr2
      push_cast at c1 c2
      rw [abs_le]
      constructor <;> linarith
    have hsig : |(if a.m < 0 then (-1 : ℚ) else 1)| = 1 := by
      split <;> simp
    have hpow : (2 : ℚ) ^ (B - p - 1) * 2 ^ (p + 1) = 2 ^ B := by
      rw [← pow_add]
      congr 1
      omega
    have hBK : (2 : ℚ) ^ B * 2 ^ a.e ≤ 2 ^ K := by
      have e1 : (2 : ℚ) ^ (B - 1) * 2 ^ a.e < 2 ^ K := by
        have c3 : ((2 ^ (B - 1) : Nat) : ℚ) ≤ (n : ℚ) := Nat.cast_le.mpr hB2
        push_cast at c3
        have e2 : |a.val| = (n : ℚ) * 2 ^ a.e := by
          simp only [Dyadic.val]
          rw [abs_mul, habs, abs_of_pos hpos]
        rw [e2] at h
        calc (2 : ℚ) ^ (B - 1) * 2 ^ a.e ≤ (n : ℚ) * 2 ^ a.e :=
              mul_le_mul_of_nonneg_right c3 hpos.le
          _ < 2 ^ K := h
      rw [← zpow_natCast, ← zpow_natCast (2 : ℚ) K, ← zpow_add₀ h2,
        zpow_lt_zpow_iff_right₀ (by norm_num)] at e1
      rw [← zpow_natCast, ← zpow_natCast (2 : ℚ) K, ← zpow_add₀ h2]
      apply zpow_le_zpow_right₀ (by norm_num)
      omega
    rw [hval, abs_mul, abs_mul, hsig, one_mul, abs_of_pos hpos]
    calc |(q1 : ℚ) * 2 ^ (B - p) - (n : ℚ)| * 2 ^ a.e * 2 ^ (p + 1)
        ≤ 2 ^ (B - p - 1) * 2 ^ a.e * 2 ^ (p + 1) := by
          apply mul_le_mul_of_nonneg_right _ (by positivity)
          exact mul_le_mul_of_nonneg_right hd hpos.le
      _ = 2 ^ B * 2 ^ a.e := by
          rw [← hpow]
          ring
      _ ≤ 2 ^ K := hBK

/-- The conversion to an integer lies between zero and the value converted. -/
theorem trunc_bounds (a : Dyadic) :
    (0 ≤ a.val → 0 ≤ Dyadic.trunc a ∧ ((Dyadic.trunc a : Int) : ℚ) ≤ a.val)
    ∧ (a.val ≤ 0 → Dyadic.trunc a ≤ 0 ∧ a.val ≤ ((Dyadic.trunc a : Int) : ℚ)) := by
  have hpos : (0 : ℚ) < 2 ^ a.e := by positivity
  have hsign1 : 0 ≤ a.val → 0 ≤ a.m := by
    intro h
    have : (0 : ℚ) ≤ (a.m : ℚ) := by
      by_contra hc
      have : a.val < 0 := mul_neg_of_neg_of_pos (not_le.mp hc) hpos
      linarith
    exact_mod_cast this
  have hsign2 : a.val ≤ 0 → a.m ≤ 0 := by
    intro h
    have : (a.m : ℚ) ≤ 0 := by
      by_contra hc
      have : 0 < a.val := mul_pos (not_le.mp hc) hpos
      linarith
    exact_mod_cast this
  unfold Dyadic.trunc
  split
  · next he =>
    have hv : ((a.m * 2 ^ a.e.toNat : Int) : ℚ) = a.val := by
      simp only [Dyadic.val]
      push_cast
      rw [← zpow_natCast, Int.toNat_of_nonneg he]
    have hp : (0 : Int) < 2 ^ a.e.toNat := by positivity
    constructor
    · intro h
      exact ⟨Int.mul_nonneg (hsign1 h) hp.le, hv.le⟩
    · intro h
      exact ⟨Int.mul_nonpos_of_nonpos_of_nonneg (hsign2 h) hp.le, hv.ge⟩
  · next he =>
    have hD : (0 : Int) < 2 ^ (-a.e).toNat := by positivity
    have hv : a.val * ((2 ^ (-a.e).toNat : Int) : ℚ) = (a.m : ℚ) := by
      simp only [Dyadic.val]
      push_cast
      rw [← zpow_natCast, Int.toNat_of_nonneg (by omega), mul_assoc,
        ← zpow_add₀ (by norm_num : (2 : ℚ) ≠ 0)]
      simp
    have hDq : (0 : ℚ) < ((2 ^ (-a.e).toNat : Int) : ℚ) := by exact_mod_cast hD
    generalize (2 : Int) ^ (-a.e).toNat = D at *
    constructor
    · intro h
      have hm := hsign1 h
      rw [Int.tdiv_eq_ediv hm hD.le]
      refine ⟨Int.ediv_nonneg hm hD.le, ?_⟩
      have h1 : a.m / D * D ≤ a.m := Int.ediv_mul_le a.m (by omega)
      have h2 : ((a.m / D * D : Int) : ℚ) ≤ (a.m : ℚ) := by exact_mod_cast h1
      push_cast at h2
      rw [← hv] at h2
      exact le_of_mul_le_mul_right h2 hDq
    · intro h
      have hm := hsign2 h
      have ht : Int.tdiv a.m D = -((-a.m) / D) := by
        rw [← Int.tdiv_eq_ediv (by omega) hD.le, Int.neg_tdiv, Int.neg_neg]
      rw [ht]
      have h0 : 0 ≤ (-a.m) / D := Int.ediv_nonneg (by omega) hD.le
      refine ⟨by omega, ?_⟩
      have h1 : (-a.m) / D * D ≤ -a.m := Int.ediv_mul_le (-a.m) (by omega)
      have h2 : (((-a.m) / D * D : Int) : ℚ) ≤ ((-a.m : Int) : ℚ) := by exact_mod_cast h1
      push_cast at h2
      rw [← hv] at h2
      have h3 : a.val * (D : ℚ) ≤ (-(((-a.m) / D : Int) : ℚ)) * (D : ℚ) := by
        linarith
      have h4 := le_of_mul_le_mul_right h3 hDq
      push_cast
      push_cast at h4
      exact h4

/-- The bound of `round_err`, as two inequalities without absolute value. -/
theorem round_err_bounds (p K : Nat) (a : Dyadic) (h1 : -(2 ^ K) < a.val) (h2 : a.val < 2 ^ K) :
    (a.val - (Dyadic.round p a).val) * 2 ^ (p + 1) ≤ 2 ^ K
    ∧ ((Dyadic.round p a).val - a.val) * 2 ^ (p + 1) ≤ 2 ^ K := by
  have h := round_err p K a (abs_lt.mpr ⟨h1, h2⟩)
  have hp : (0 : ℚ) ≤ 2 ^ (p + 1) := by positivity
  constructor
  · refine le_trans (mul_le_mul_of_nonneg_right ?_ hp) h
    rw [← neg_sub]
    exact neg_le_abs _
  · exact le_trans (mul_le_mul_of_nonneg_right (le_abs_self _) hp) h

/-- For a quotient `c` with `|1.8 * c + 32| < 2^14`, the `float` value the conversion forms
from `1000 * c` is less than one away from `1800 * c + 32000`: the two roundings to `double`
move the value by at most `2^-39` each, the rounding of `temp` to `float` by at most `2^-11`,
which the product with 1000 brings to less than one half, and the last rounding to `float` by
at most one half. -/
theorem fahrenheit_float_near (c : Int) (h1 : -81919 ≤ 9 * c + 160) (h2 : 9 * c + 160 ≤ 81919) :
    (Server.fahrenheit_float (1000 * c)).val - (1800 * (c : ℚ) + 32000) < 1
    ∧ (1800 * (c : ℚ) + 32000) - (Server.fahrenheit_float (1000 * c)).val < 1 := by
  have hc1 : (-81919 : ℚ) ≤ 9 * (c : ℚ) + 160 := by exact_mod_cast h1
  have hc2 : 9 * (c : ℚ) + 160 ≤ 81919 := by exact_mod_cast h2
  unfold Server.fahrenheit_float
  simp only
  rw [Int.mul_tdiv_cancel_left _ (by norm_num),
    round_exact 24 (Dyadic.ofInt c) (by simp only [Dyadic.ofInt]; omega),
    round_exact 24 (Dyadic.ofInt 1000) (by decide)]
  have hA : (Dyadic.mul (Dyadic.ofInt c) double_1_8).val
      = (c : ℚ) * (8106479329266893 / 4503599627370496) := by
    rw [val_mul, val_ofInt]
    simp only [Dyadic.val, double_1_8]
    norm_num
  obtain ⟨a1, a2⟩ := round_err_bounds 53 15 (Dyadic.mul (Dyadic.ofInt c) double_1_8)
    (by rw [hA]; norm_num; linarith) (by rw [hA]; norm_num; linarith)
  rw [hA] at a1 a2
  generalize (Dyadic.round 53 (Dyadic.mul (Dyadic.ofInt c) double_1_8)) = x1 at *
  have hS : (Dyadic.add x1 (Dyadic.ofInt 32)).val = x1.val + 32 := by
    rw [val_add, val_ofInt]
    norm_num
  norm_num at a1 a2
  obtain ⟨b1, b2⟩ := round_err_bounds 53 15 (Dyadic.add x1 (Dyadic.ofInt 32))
    (by rw [hS]; norm_num; linarith) (by rw [hS]; norm_num; linarith)
  rw [hS] at b1 b2
  generalize (Dyadic.round 53 (Dyadic.add x1 (Dyadic.ofInt 32))) = s at *
  norm_num at b1 b2
  obtain ⟨d1, d2⟩ := round_err_bounds 24 14 s
    (by norm_num; linarith) (by norm_num; linarith)
  generalize (Dyadic.round 24 s) = temp at *
  norm_num at d1 d2
  have hP : (Dyadic.mul temp (Dyadic.ofInt 1000)).val = temp.val * 1000 := by
    rw [val_mul, val_ofInt]
    norm_num
  obtain ⟨f1, f2⟩ := round_err_bounds 24 24 (Dyadic.mul temp (Dyadic.ofInt 1000))
    (by rw [hP]; norm_num; linarith) (by rw [hP]; norm_num; linarith)
  rw [hP] at f1 f2
  generalize (Dyadic.round 24 (Dyadic.mul temp (Dyadic.ofInt 1000))) = Q at *
  norm_num at f1 f2
  constructor <;> linarith

set_option maxRecDepth 100000 in
/-- The conversion at the quotients 0, -1, ..., -17, where `1.8 * c + 32` is not negative. -/
theorem fahrenheit_table_small :
    ∀ c : Nat, c < 18 →
      Server.fahrenheit (-(1000 * (c : Int))) = some (32000 - 1800 * (c : Int)) := by
  decide

set_option maxRecDepth 100000 in
/-- The conversion at the quotients 9085 and -9120, where `|1.8 * c + 32|` is above `2^14`. -/
theorem fahrenheit_table_edge :
    Server.fahrenheit (1000 * 9085) = some 16385000
    ∧ Server.fahrenheit (-(1000 * 9120)) = some (-16384000) := by
  decide

/-- For a quotient `c` from 0 to 9085 the conversion of `1000 * c` is defined and at most
`1800 * c + 32000`. -/
theorem fahrenheit_not_above (c : Int) (h0 : 0 ≤ c) (h1 : c ≤ 9085) :
    ∃ v, Server.fahrenheit (1000 * c) = some v ∧ v ≤ 1800 * c + 32000 := by
  by_cases he : c = 9085
  · subst he
    exact ⟨16385000, fahrenheit_table_edge.1, by norm_num⟩
  · obtain ⟨n1, n2⟩ := fahrenheit_float_near c (by omega) (by omega)
    obtain ⟨t1, t2⟩ := trunc_bounds (Server.fahrenheit_float (1000 * c))
    have hc0 : (0 : ℚ) ≤ (c : ℚ) := by exact_mod_cast h0
    have hv : 0 ≤ Dyadic.trunc (Server.fahrenheit_float (1000 * c))
        ∧ Dyadic.trunc (Server.fahrenheit_float (1000 * c)) ≤ 1800 * c + 32000 := by
      rcases le_total 0 (Server.fahrenheit_float (1000 * c)).val with hs | hs
      · obtain ⟨u1, u2⟩ := t1 hs
        refine ⟨u1, ?_⟩
        have u3 : ((Dyadic.trunc (Server.fahrenheit_float (1000 * c)) : Int) : ℚ)
            < ((1800 * c + 32000 + 1 : Int) : ℚ) := by
          push_cast
          linarith
        have u4 := Int.cast_lt.mp u3
        omega
      · exfalso
        linarith
    unfold Server.fahrenheit
    simp only
    rw [if_pos ⟨by omega, by omega⟩]
    exact ⟨_, rfl, hv.2⟩

/-- For a quotient `-c` from -9120 to 0 the conversion of `-1000 * c` is defined and at least
`32000 - 1800 * c`. -/
theorem fahrenheit_not_below (c : Int) (h0 : 0 ≤ c) (h1 : c ≤ 9120) :
    ∃ v, Server.fahrenheit (-(1000 * c)) = some v ∧ 32000 - 1800 * c ≤ v := by
  by_cases he : c = 9120
  · subst he
    exact ⟨-16384000, fahrenheit_table_edge.2, by norm_num⟩
  by_cases hs : c < 18
  · have hn : ((c.toNat : Nat) : Int) = c := by omega
    have h := fahrenheit_table_small c.toNat (by omega)
    rw [hn] at h
    exact ⟨_, h, le_refl _⟩
  · have hm : -(1000 * c) = 1000 * (-c) := by ring
    rw [hm]
    obtain ⟨n1, n2⟩ := fahrenheit_float_near (-c) (by omega) (by omega)
    obtain ⟨t1, t2⟩ := trunc_bounds (Server.fahrenheit_float (1000 * (-c)))
    have hc0 : (18 : ℚ) ≤ (c : ℚ) := by exact_mod_cast (not_lt.mp hs)
    push_cast at n1 n2
    have hv : Dyadic.trunc (Server.fahrenheit_float (1000 * (-c))) ≤ 0
        ∧ 32000 - 1800 * c ≤ Dyadic.trunc (Server.fahrenheit_float (1000 * (-c))) := by
      rcases le_total 0 (Server.fahrenheit_float (1000 * (-c))).val with hs | hs
      · exfalso
        linarith
      · obtain ⟨u1, u2⟩ := t2 hs
        refine ⟨u1, ?_⟩
        have u3 : ((32000 - 1800 * c - 1 : Int) : ℚ)
            < ((Dyadic.trunc (Server.fahrenheit_float (1000 * (-c))) : Int) : ℚ) := by
          push_cast
          linarith
        have u4 := Int.cast_lt.mp u3
        omega
    unfold Server.fahrenheit
    simp only
    rw [if_pos ⟨by omega, by omega⟩]
    exact ⟨_, rfl, hv.2⟩

set_option maxRecDepth 100000 in
/-- C19, the claim as stated fails: 9086001 and -9121001 are not multiples of 1000, and at
each of them the result of the code (16386801 and -16385801) is the convert-then-divide
value, both as `1.8 * t + 32000` truncated and as the code computes it when the division is
done in `float` after the conversion. -/
theorem C19_counterexample :
    ((9086001 : Int) % 1000 ≠ 0
      ∧ Server.fahrenheit 9086001 = some 16386801
      ∧ Server.fahrenheit_exact 9086001 = 16386801
      ∧ Server.fahrenheit_convert_first 9086001 = some 16386801)
    ∧ ((-9121001 : Int) % 1000 ≠ 0
      ∧ Server.fahrenheit (-9121001) = some (-16385801)
      ∧ Server.fahrenheit_exact (-9121001) = -16385801
      ∧ Server.fahrenheit_convert_first (-9121001) = some (-16385801)) := by
  decide

/-- C19, amended: the conversion depends on the decoded temperature only through the quotient
`t / 1000` truncated toward zero, so two temperatures with the same quotient give the same
result (25000 and 25999 give 77000; -999, 0 and 999 give 32000); and for every temperature
strictly between -9121001 and 9086001, the two nearest temperatures at which it fails, that is
not a multiple of 1000, the result differs from the convert-then-divide value
`1.8 * t + 32000` truncated toward zero. -/
theorem C19_divide_before_convert (t1 t2 : Int)
    (hq : Int.tdiv t1 1000 = Int.tdiv t2 1000) :
    Server.fahrenheit t1 = Server.fahrenheit t2
    ∧ Server.fahrenheit t1 = Server.fahrenheit (1000 * Int.tdiv t1 1000)
    ∧ (Server.fahrenheit 25000 = some 77000 ∧ Server.fahrenheit 25999 = some 77000
      ∧ Server.fahrenheit (-999) = some 32000 ∧ Server.fahrenheit 0 = some 32000
      ∧ Server.fahrenheit 999 = some 32000)
    ∧ (-9121001 < t1 → t1 < 9086001 → t1 % 1000 ≠ 0 →
        Server.fahrenheit t1 ≠ some (Server.fahrenheit_exact t1)) := by
  refine ⟨fahrenheit_of_quotient t1 t2 hq, ?_, by decide, ?_⟩
  · apply fahrenheit_of_quotient
    rw [Int.mul_tdiv_cancel_left _ (by norm_num)]
  · intro hlo hhi hmod
    by_cases hs : 0 ≤ t1
    · have hc : Int.tdiv t1 1000 = t1 / 1000 := tdiv_of_nonneg _ _ hs (by norm_num)
      have hf : Server.fahrenheit t1 = Server.fahrenheit (1000 * (t1 / 1000)) := by
        apply fahrenheit_of_quotient
        rw [Int.mul_tdiv_cancel_left _ (by norm_num), hc]
      obtain ⟨v, hv, hle⟩ := fahrenheit_not_above (t1 / 1000) (by omega) (by omega)
      rw [hf, hv]
      unfold Server.fahrenheit_exact
      rw [tdiv_of_nonneg _ _ (by omega) (by norm_num)]
      intro h
      have h2 := Option.some.inj h
      omega
    · have hc : Int.tdiv t1 1000 = -((-t1) / 1000) := tdiv_of_neg _ _ (by omega) (by norm_num)
      have hf : Server.fahrenheit t1 = Server.fahrenheit (-(1000 * ((-t1) / 1000))) := by
        apply fahrenheit_of_quotient
        rw [Int.neg_tdiv, Int.mul_tdiv_cancel_left _ (by norm_num), hc]
      obtain ⟨v, hv, hle⟩ := fahrenheit_not_below ((-t1) / 1000) (by omega) (by omega)
      rw [hf, hv]
      unfold Server.fahrenheit_exact
      intro h
      have h2 := Option.some.inj h
      have hk1 : 1000 * ((-t1) / 1000) ≤ -t1 := by omega
      have hk2 : -t1 < 1000 * ((-t1) / 1000) + 1000 := by omega
      have hk3 : -t1 ≠ 1000 * ((-t1) / 1000) := by omega
      generalize (-t1) / 1000 = k at hle h2 hk1 hk2 hk3
      by_cases hp : 0 ≤ 9 * t1 + 160000
      · rw [tdiv_of_nonneg _ _ hp (by norm_num)] at h2
        omega
      · rw [tdiv_of_neg _ _ (by omega) (by norm_num)] at h2
        omega

/-- Witness of C19 (amended): 25000 and 25999 have the same quotient 25. -/
theorem C19_divide_before_convert_witness :
    Server.fahrenheit 25000 = Server.fahrenheit 25999 :=
  (C19_divide_before_convert 25000 25999 (by decide)).1

/-! ### Malformed payloads, the initial cache and the header fields -/

theorem is_duplicate_of_length_ne (s : Server.State) (rx : Server.RxEvt)
    (hlen : rx.payload.length ≠ 8) : Server.is_duplicate s rx = false := by
  unfold Server.is_duplicate
  rw [if_neg hlen]

theorem getD_set_self (l : List Nat) (k v : Nat) (hk : k < l.length) :
    (l.set k v).getD k 0 = v := by
  simp [List.getD_eq_getElem?_getD, List.getElem?_set, hk]

theorem getD_set_other (l : List Nat) (k j v : Nat) (hj : j ≠ k) :
    (l.set k v).getD j 0 = l.getD j 0 := by
  simp [List.getD_eq_getElem?_getD, List.getElem?_set, Ne.symm hj]

/-- C21: for every server state (cursor `k` in [0,8), 8 slots) and every inbound message whose
payload length is not 8, the receive handler leaves the dedup cache unchanged but still writes
to the ring store: slot `k` receives the folded value of the existing cache, not of the
incoming payload, the other slots are unchanged and the cursor becomes `(k + 1) mod 8`. From
the initial cache the value written is 0, and after an accepted 8-byte payload it is a second
copy of the folded value of that payload. -/
theorem C21_malformed_payload_stores_stale_cache (cfg : Config) (s : Server.State)
    (rx : Server.RxEvt) (hlen : rx.payload.length ≠ 8) (hk : s.store_state < 8)
    (hst : s.store_data.length = 8) :
    ((Server.sl_btmesh_on_event cfg s rx).cache_data = s.cache_data
      ∧ (Server.sl_btmesh_on_event cfg s rx).store_data
        = s.store_data.set s.store_state (Server.fold_data_value s.cache_data)
      ∧ (Server.sl_btmesh_on_event cfg s rx).store_data.getD s.store_state 0
        = Server.fold_data_value s.cache_data
      ∧ (∀ j, j ≠ s.store_state →
          (Server.sl_btmesh_on_event cfg s rx).store_data.getD j 0 = s.store_data.getD j 0)
      ∧ (Server.sl_btmesh_on_event cfg s rx).store_state = (s.store_state + 1) % 8)
    ∧ Server.fold_data_value Server.init.cache_data = 0
    ∧ (∀ (s0 : Server.State) (rx0 : Server.RxEvt),
        s0.cache_data.length = 8 → s0.store_data.length = 8 → s0.store_state < 8 →
        rx0.payload.length = 8 → rx0.payload ≠ s0.cache_data →
        (Server.sl_btmesh_on_event cfg (Server.sl_btmesh_on_event cfg s0 rx0) rx).cache_data
          = rx0.payload
        ∧ (Server.sl_btmesh_on_event cfg (Server.sl_btmesh_on_event cfg s0 rx0) rx).store_data.getD
            s0.store_state 0 = Server.fold_data_value rx0.payload
        ∧ (Server.sl_btmesh_on_event cfg (Server.sl_btmesh_on_event cfg s0 rx0) rx).store_data.getD
            ((s0.store_state + 1) % 8) 0 = Server.fold_data_value rx0.payload
        ∧ (Server.sl_btmesh_on_event cfg (Server.sl_btmesh_on_event cfg s0 rx0) rx).store_state
          = (s0.store_state + 2) % 8) := by
  have stale : ∀ t : Server.State, t.store_state < 8 → t.store_data.length = 8 →
      (Server.sl_btmesh_on_event cfg t rx).cache_data = t.cache_data
      ∧ (Server.sl_btmesh_on_event cfg t rx).store_data
        = t.store_data.set t.store_state (Server.fold_data_value t.cache_data)
      ∧ (Server.sl_btmesh_on_event cfg t rx).store_data.getD t.store_state 0
        = Server.fold_data_value t.cache_data
      ∧ (∀ j, j ≠ t.store_state →
          (Server.sl_btmesh_on_event cfg t rx).store_data.getD j 0 = t.store_data.getD j 0)
      ∧ (Server.sl_btmesh_on_event cfg t rx).store_state = (t.store_state + 1) % 8 := by
    intro t htk htl
    obtain ⟨h1, h2, h3⟩ := on_event_store cfg t rx (is_duplicate_of_length_ne t rx hlen)
    rw [if_neg hlen] at h1 h2
    refine ⟨h1, h2, ?_, ?_, ?_⟩
    · rw [h2]
      exact getD_set_self _ _ _ (by omega)
    · intro j hj
      rw [h2]
      exact getD_set_other _ _ _ _ hj
    · rw [h3]
      split <;> omega
  refine ⟨stale s hk hst, by decide, ?_⟩
  intro s0 rx0 hc0 hst0 hk0 hl0 hne0
  obtain ⟨a1, a2, a3⟩ := accept_summary cfg s0 rx0 _ _ _ ⟨rfl, rfl, rfl⟩ hc0 hl0 hne0
  have hk1 : (Server.sl_btmesh_on_event cfg s0 rx0).store_state < 8 := by
    rw [a3]
    split <;> omega
  have hl1 : (Server.sl_btmesh_on_event cfg s0 rx0).store_data.length = 8 := by
    rw [a2, List.length_set]
    exact hst0
  have hcur : (Server.sl_btmesh_on_event cfg s0 rx0).store_state = (s0.store_state + 1) % 8 := by
    rw [a3]
    split <;> omega
  obtain ⟨b1, _, b3, b4, b5⟩ := stale _ hk1 hl1
  refine ⟨by rw [b1, a1], ?_, ?_, ?_⟩
  · rw [b4 s0.store_state (by rw [hcur]; omega), a2]
    exact getD_set_self _ _ _ (by omega)
  · rw [← hcur, b3, a1]
  · rw [b5, hcur]
    omega

/-- Witness of C21: the cache holds 1..8, the cursor is 7 and an empty payload arrives. -/
theorem C21_malformed_payload_stores_stale_cache_witness :
    (Server.sl_btmesh_on_event { sensor_status := 1, DATA_LENGTH := 8 }
        { Server.init with cache_data := [1, 2, 3, 4, 5, 6, 7, 8], store_state := 7 }
        (Server.message 1 [])).store_data
      = (Server.State.store_data
          { Server.init with cache_data := [1, 2, 3, 4, 5, 6, 7, 8], store_state := 7 }).set 7
          (Server.fold_data_value [1, 2, 3, 4, 5, 6, 7, 8]) :=
  (C21_malformed_payload_stores_stale_cache { sensor_status := 1, DATA_LENGTH := 8 }
    { Server.init with cache_data := [1, 2, 3, 4, 5, 6, 7, 8], store_state := 7 }
    (Server.message 1 []) (by decide) (by decide) rfl).1.2.1

theorem read_sensor_data_failure (c : Client.State) (r : Client.RhtRead)
    (hc : c.sensor_data.length = 8) (hr : r.status ≠ SL_STATUS_OK) :
    (Client.read_sensor_data c r).sensor_data = [0, 0, 0, 0, 0, 0, 0, 0] := by
  simp only [Client.read_sensor_data, hr, ne_eq, not_false_eq_true, if_true, Client.emit,
    List.replicate]
  exact pack_sensor_data_eq 0 0 0 0 0 0 0 0 _ hc

theorem zero_payload_dropped (cfg : Config) (s : Server.State) (rx : Server.RxEvt)
    (hs : s.cache_data = [0, 0, 0, 0, 0, 0, 0, 0]) (hz : rx.payload = [0, 0, 0, 0, 0, 0, 0, 0]) :
    Server.is_duplicate s rx = true
    ∧ (Server.sl_btmesh_on_event cfg s rx).cache_data = s.cache_data
    ∧ (Server.sl_btmesh_on_event cfg s rx).store_data = s.store_data
    ∧ (Server.sl_btmesh_on_event cfg s rx).store_state = s.store_state
    ∧ (Server.sl_btmesh_on_event cfg s rx).effects
      = s.effects ++ [Effect.app_log "Duplicate payload detected, skipping processing." []] := by
  have hd : Server.is_duplicate s rx = true := by
    apply is_duplicate_of_eq
    · rw [hz]
      rfl
    · intro i _
      rw [hz, hs]
  rw [on_event_duplicate cfg s rx hd]
  exact ⟨hd, rfl, rfl, rfl, rfl⟩

/-- C22: from the initial server state, whose cache is all zero, an inbound 8-byte payload of
zero bytes is classified as a duplicate and dropped: cache, ring store and cursor stay as
initialised and only the duplicate is logged. The same holds in every state whose cache is
still all zero, so the zero-filled 8-byte payload that the client builds after a failed sensor
read (published with `DATA_LENGTH` 8) is neither stored nor decoded by such a server. -/
theorem C22_initial_zero_payload_dropped (cfg : Config) (rx : Server.RxEvt)
    (hz : rx.payload = [0, 0, 0, 0, 0, 0, 0, 0]) :
    (Server.is_duplicate Server.init rx = true
      ∧ (Server.sl_btmesh_on_event cfg Server.init rx).cache_data = [0, 0, 0, 0, 0, 0, 0, 0]
      ∧ (Server.sl_btmesh_on_event cfg Server.init rx).store_data = [0, 0, 0, 0, 0, 0, 0, 0]
      ∧ (Server.sl_btmesh_on_event cfg Server.init rx).store_state = 0
      ∧ (Server.sl_btmesh_on_event cfg Server.init rx).effects
        = [Effect.app_log "Duplicate payload detected, skipping processing." []])
    ∧ (∀ s : Server.State, s.cache_data = [0, 0, 0, 0, 0, 0, 0, 0] →
        Server.is_duplicate s rx = true
        ∧ (Server.sl_btmesh_on_event cfg s rx).cache_data = s.cache_data
        ∧ (Server.sl_btmesh_on_event cfg s rx).store_data = s.store_data
        ∧ (Server.sl_btmesh_on_event cfg s rx).store_state = s.store_state
        ∧ (Server.sl_btmesh_on_event cfg s rx).effects
          = s.effects ++ [Effect.app_log "Duplicate payload detected, skipping processing." []])
    ∧ (∀ (c : Client.State) (r : Client.RhtRead) (sc_set sc_publish : Nat)
        (s : Server.State) (rx1 : Server.RxEvt),
        c.sensor_data.length = 8 → r.status ≠ SL_STATUS_OK → cfg.DATA_LENGTH = 8 →
        s.cache_data = [0, 0, 0, 0, 0, 0, 0, 0] →
        rx1.payload = (Client.read_sensor_data c r).sensor_data.take cfg.DATA_LENGTH →
        Effect.set_publication cfg.sensor_status cfg.DATA_LENGTH [0, 0, 0, 0, 0, 0, 0, 0]
          ∈ (Client.publish_sensor_data cfg (Client.read_sensor_data c r)
              sc_set sc_publish).effects
        ∧ Server.is_duplicate s rx1 = true
        ∧ (Server.sl_btmesh_on_event cfg s rx1).cache_data = s.cache_data
        ∧ (Server.sl_btmesh_on_event cfg s rx1).store_data = s.store_data
        ∧ (Server.sl_btmesh_on_event cfg s rx1).store_state = s.store_state
        ∧ (Server.sl_btmesh_on_event cfg s rx1).effects
          = s.effects
            ++ [Effect.app_log "Duplicate payload detected, skipping processing." []]) := by
  refine ⟨zero_payload_dropped cfg Server.init rx rfl hz,
    fun s hs => zero_payload_dropped cfg s rx hs hz, ?_⟩
  intro c r sc_set sc_publish s rx1 hc hr hdl hs hp
  have hzero := read_sensor_data_failure c r hc hr
  have hz1 : rx1.payload = [0, 0, 0, 0, 0, 0, 0, 0] := by
    rw [hp, hzero, hdl]
    rfl
  refine ⟨?_, zero_payload_dropped cfg s rx1 hs hz1⟩
  unfold Client.publish_sensor_data
  dsimp only
  rw [← hzero]
  split
  · simp [Client.emit]
  · split <;> simp [Client.emit]

/-- Witness of C22: a `sensor_status` message with 8 zero bytes reaches the initial server. -/
theorem C22_initial_zero_payload_dropped_witness :
    Server.is_duplicate Server.init (Server.message 1 [0, 0, 0, 0, 0, 0, 0, 0]) = true :=
  (C22_initial_zero_payload_dropped { sensor_status := 1, DATA_LENGTH := 8 }
    (Server.message 1 [0, 0, 0, 0, 0, 0, 0, 0]) rfl).1.1

/-- C23: the duplicate decision and the store step of the receive handler depend on the
payload only. Two inbound messages with the same payload bytes (and so the same length),
handled in the same server state, get the same value of `is_duplicate` and leave the same
cache, ring store and cursor, whatever their opcodes, addresses and other header fields and
whatever the value of the opcode `sensor_status` is; in particular a message whose 8 bytes
equal the cache is dropped whatever its opcode. -/
theorem C23_dedup_store_payload_only (cfg1 cfg2 : Config) (s : Server.State)
    (rx1 rx2 : Server.RxEvt) (hp : rx1.payload = rx2.payload) :
    Server.is_duplicate s rx1 = Server.is_duplicate s rx2
    ∧ (Server.sl_btmesh_on_event cfg1 s rx1).cache_data
      = (Server.sl_btmesh_on_event cfg2 s rx2).cache_data
    ∧ (Server.sl_btmesh_on_event cfg1 s rx1).store_data
      = (Server.sl_btmesh_on_event cfg2 s rx2).store_data
    ∧ (Server.sl_btmesh_on_event cfg1 s rx1).store_state
      = (Server.sl_btmesh_on_event cfg2 s rx2).store_state
    ∧ (rx1.payload.length = 8 → (∀ i < 8, rx1.payload.getD i 0 = s.cache_data.getD i 0) →
        ∀ opcode : Nat,
          Server.is_duplicate s { rx1 with opcode := opcode } = true
          ∧ (Server.sl_btmesh_on_event cfg1 s { rx1 with opcode := opcode }).cache_data
            = s.cache_data
          ∧ (Server.sl_btmesh_on_event cfg1 s { rx1 with opcode := opcode }).store_data
            = s.store_data
          ∧ (Server.sl_btmesh_on_event cfg1 s { rx1 with opcode := opcode }).store_state
            = s.store_state) := by
  have hdup : Server.is_duplicate s rx1 = Server.is_duplicate s rx2 := by
    unfold Server.is_duplicate
    rw [hp]
  have hfields : (Server.sl_btmesh_on_event cfg1 s rx1).cache_data
        = (Server.sl_btmesh_on_event cfg2 s rx2).cache_data
      ∧ (Server.sl_btmesh_on_event cfg1 s rx1).store_data
        = (Server.sl_btmesh_on_event cfg2 s rx2).store_data
      ∧ (Server.sl_btmesh_on_event cfg1 s rx1).store_state
        = (Server.sl_btmesh_on_event cfg2 s rx2).store_state := by
    cases hd : Server.is_duplicate s rx1 with
    | true =>
      rw [on_event_duplicate cfg1 s rx1 hd, on_event_duplicate cfg2 s rx2 (hdup ▸ hd)]
      exact ⟨rfl, rfl, rfl⟩
    | false =>
      obtain ⟨a1, a2, a3⟩ := on_event_store cfg1 s rx1 hd
      obtain ⟨b1, b2, b3⟩ := on_event_store cfg2 s rx2 (hdup ▸ hd)
      rw [a1, a2, a3, b1, b2, b3, hp]
      exact ⟨rfl, rfl, rfl⟩
  refine ⟨hdup, hfields.1, hfields.2.1, hfields.2.2, ?_⟩
  intro hlen heq opcode
  have hd : Server.is_duplicate s { rx1 with opcode := opcode } = true :=
    is_duplicate_of_eq s _ hlen heq
  rw [on_event_duplicate cfg1 s _ hd]
  exact ⟨hd, rfl, rfl, rfl⟩

/-- Witness of C23: the same 8 bytes as the cache under two opcodes and two source addresses. -/
theorem C23_dedup_store_payload_only_witness :
    Server.is_duplicate { Server.init with cache_data := [1, 2, 3, 4, 5, 6, 7, 8] }
        (Server.message 1 [1, 2, 3, 4, 5, 6, 7, 8])
      = Server.is_duplicate { Server.init with cache_data := [1, 2, 3, 4, 5, 6, 7, 8] }
        { Server.message 2 [1, 2, 3, 4, 5, 6, 7, 8] with source_address := 9 } :=
  (C23_dedup_store_payload_only { sensor_status := 1, DATA_LENGTH := 8 }
    { sensor_status := 1, DATA_LENGTH := 8 }
    { Server.init with cache_data := [1, 2, 3, 4, 5, 6, 7, 8] }
    (Server.message 1 [1, 2, 3, 4, 5, 6, 7, 8])
    { Server.message 2 [1, 2, 3, 4, 5, 6, 7, 8] with source_address := 9 } rfl).1

end BleMesh
